import Mathlib

/-! # Pico-I2C-LCD: the `LCD_I2C` driver

A shallow embedding of `LCD_I2C.hpp` / `LCD_I2C.cpp`: an HD44780 character LCD
driven in 4-bit mode through a PCF8574 I2C expander.

* `byte` (`uint8_t`) values are natural numbers; every place where C++ converts an
  `int` expression to `byte` (an assignment to a `byte`, a `byte` argument) is an
  explicit `toByte`, i.e. `% 256`.
* The calls into the Pico SDK (`i2c_write_blocking`, `sleep_us`, ...) are recorded
  as a trace of `Event`s, in program order.
* `const` member functions return their trace; the other member functions return
  the updated object together with their trace.
* The function-local `static const ROW_OFFSETS` of `SetCursor` is program state
  shared by every object: it is threaded explicitly as `Statics`.
* A call that ends in `std::terminate` (an exception leaving a `noexcept`
  function) yields `none`.
-/

/-! ## Machine integers -/

/-- Conversion of an `int` value to `byte` (`uint8_t`). -/
def toByte (n : Nat) : Nat := n % 256

/-- The `int` value `~x` of a promoted `byte` operand `x`, as its 32-bit
two's complement pattern. For a non-negative `int` `v`, the C++ expression
`v & ~x` is `v &&& bitNot x`. -/
def bitNot (x : Nat) : Nat := 0xFFFFFFFF ^^^ x

/-! ## Constants of `LCD_I2C.hpp` -/

-- Commands
def CLEAR_DISPLAY : Nat := 0x01
def RETURN_HOME : Nat := 0x02
def ENTRY_MODE_SET : Nat := 0x04
def DISPLAY_CONTROL : Nat := 0x08
def CURSOR_SHIFT : Nat := 0x10
def FUNCTION_SET : Nat := 0x20
def SET_CGRAM_ADDR : Nat := 0x40
def SET_DDRAM_ADDR : Nat := 0x80

-- Flags for display entry mode set
def ENTRY_RIGHT : Nat := 0x00
def ENTRY_LEFT : Nat := 0x02
def ENTRY_SHIFT_INCREMENT : Nat := 0x01
def ENTRY_SHIFT_DECREMENT : Nat := 0x00

-- Flags for display on/off control
def DISPLAY_ON : Nat := 0x04
def DISPLAY_OFF : Nat := 0x00
def CURSOR_ON : Nat := 0x02
def CURSOR_OFF : Nat := 0x00
def BLINK_ON : Nat := 0x01
def BLINK_OFF : Nat := 0x00

-- Flags for function set
def MODE_8_BIT : Nat := 0x10
def MODE_4_BIT : Nat := 0x00
def LINE_2 : Nat := 0x08
def LINE_1 : Nat := 0x00
def DOTS_5x10 : Nat := 0x04
def DOTS_5x8 : Nat := 0x00

-- Flags for backlight control
def BACKLIGHT : Nat := 0x08
def NO_BACKLIGHT : Nat := 0x00

-- Special flags
def ENABLE : Nat := 0x04
def READ_WRITE : Nat := 0x02
def REGISTER_SELECT : Nat := 0x01
def COMMAND : Nat := 0x00
def CHAR : Nat := 0x01

def CUSTOM_SYMBOL_SIZE : Nat := 8

/-! ## Data model -/

/-- The data members of `class LCD_I2C`. `I2C_instance` stands for the
`i2c_inst *` handle. -/
structure LCD_I2C where
  address : Nat
  columns : Nat
  rows : Nat
  backlight : Nat
  display_function : Nat
  display_control : Nat
  display_mode : Nat
  I2C_instance : Nat
  deriving DecidableEq

/-- The SDK calls the driver makes, as observable events.
`i2c_write_blocking i2c addr data` is the one-byte call
`i2c_write_blocking(i2c, addr, &data, 1, false)`;
`gpio_set_function_I2C pin` is `gpio_set_function(pin, GPIO_FUNC_I2C)`. -/
inductive Event where
  | i2c_init (i2c : Nat) (baudrate : Nat)
  | gpio_set_function_I2C (pin : Nat)
  | gpio_pull_up (pin : Nat)
  | i2c_write_blocking (i2c : Nat) (addr : Nat) (data : Nat)
  | sleep_us (us : Nat)
  deriving DecidableEq

/-- Function-local statics with behaviour: `ROW_OFFSETS` of `SetCursor` is
initialised by the first call of `SetCursor` in the program (`none` before). The
scratch statics `data`, `high` and `low` are assigned before every use and are
modelled as locals. -/
structure Statics where
  ROW_OFFSETS : Option (List Nat)
  deriving DecidableEq

/-- The statics at program start. -/
def Statics.start : Statics := { ROW_OFFSETS := none }

/-- `LCD_I2C::array`, a `std::array<byte, 8>`. -/
abbrev LCD_I2C.array := Fin 8 → Nat

/-! ## Transport, enable pulse, nibble/byte codec -/

/-- `LCD_I2C::I2C_Write_Byte`. The result of `i2c_write_blocking` is discarded. -/
def LCD_I2C.I2C_Write_Byte (s : LCD_I2C) (val : Nat) : List Event :=
  let data := toByte (val ||| s.backlight)
  [Event.i2c_write_blocking s.I2C_instance s.address data]

/-- `DELAY` of `Pulse_Enable`, in microseconds. -/
def LCD_I2C.DELAY : Nat := 600

/-- `LCD_I2C::Pulse_Enable`. -/
def LCD_I2C.Pulse_Enable (s : LCD_I2C) (val : Nat) : List Event :=
  [Event.sleep_us LCD_I2C.DELAY]
    ++ s.I2C_Write_Byte (toByte (val ||| ENABLE))
    ++ [Event.sleep_us LCD_I2C.DELAY]
    ++ s.I2C_Write_Byte (toByte (val &&& bitNot ENABLE))
    ++ [Event.sleep_us LCD_I2C.DELAY]

/-- `LCD_I2C::Send_Nibble`. -/
def LCD_I2C.Send_Nibble (s : LCD_I2C) (val : Nat) : List Event :=
  s.I2C_Write_Byte val ++ s.Pulse_Enable val

/-- `UPPER_NIBBLE` of `Send_Byte`. -/
def LCD_I2C.UPPER_NIBBLE : Nat := 0xF0

/-- `LCD_I2C::Send_Byte`. -/
def LCD_I2C.Send_Byte (s : LCD_I2C) (val mode : Nat) : List Event :=
  let high := toByte (val &&& LCD_I2C.UPPER_NIBBLE)
  let low := toByte ((val <<< 4) &&& LCD_I2C.UPPER_NIBBLE)
  s.Send_Nibble (toByte (high ||| mode)) ++ s.Send_Nibble (toByte (low ||| mode))

/-- `LCD_I2C::Send_Command`. -/
def LCD_I2C.Send_Command (s : LCD_I2C) (val : Nat) : List Event :=
  s.Send_Byte val COMMAND

/-- `LCD_I2C::Send_Char`. -/
def LCD_I2C.Send_Char (s : LCD_I2C) (val : Nat) : List Event :=
  s.Send_Byte val CHAR

/-- `LCD_I2C::Send_Register_Select`. -/
def LCD_I2C.Send_Register_Select (s : LCD_I2C) (val : Nat) : List Event :=
  s.Send_Byte val REGISTER_SELECT

/-! ## Public operations -/

/-- `LCD_I2C::DisplayOn`. -/
def LCD_I2C.DisplayOn (s : LCD_I2C) : LCD_I2C × List Event :=
  let s1 := { s with display_control := toByte (s.display_control ||| DISPLAY_ON) }
  (s1, s1.Send_Command (toByte (DISPLAY_CONTROL ||| s1.display_control)))

/-- `LCD_I2C::DisplayOff`. -/
def LCD_I2C.DisplayOff (s : LCD_I2C) : LCD_I2C × List Event :=
  let s1 := { s with display_control := toByte (s.display_control &&& bitNot DISPLAY_ON) }
  (s1, s1.Send_Command (toByte (DISPLAY_CONTROL ||| s1.display_control)))

/-- `LCD_I2C::BacklightOn`. -/
def LCD_I2C.BacklightOn (s : LCD_I2C) : LCD_I2C × List Event :=
  let s1 := { s with backlight := BACKLIGHT }
  (s1, s1.I2C_Write_Byte s1.backlight)

/-- `LCD_I2C::BacklightOff`. -/
def LCD_I2C.BacklightOff (s : LCD_I2C) : LCD_I2C × List Event :=
  let s1 := { s with backlight := NO_BACKLIGHT }
  (s1, s1.I2C_Write_Byte s1.backlight)

/-- `LCD_I2C::SetBacklight`. -/
def LCD_I2C.SetBacklight (s : LCD_I2C) (light_on : Bool) : LCD_I2C × List Event :=
  if light_on then s.BacklightOn else s.BacklightOff

/-- `LCD_I2C::CursorOn`. -/
def LCD_I2C.CursorOn (s : LCD_I2C) : LCD_I2C × List Event :=
  let s1 := { s with display_control := toByte (s.display_control ||| CURSOR_ON) }
  (s1, s1.Send_Command (toByte (DISPLAY_CONTROL ||| s1.display_control)))

/-- `LCD_I2C::CursorOff`. -/
def LCD_I2C.CursorOff (s : LCD_I2C) : LCD_I2C × List Event :=
  let s1 := { s with display_control := toByte (s.display_control &&& bitNot CURSOR_ON) }
  (s1, s1.Send_Command (toByte (DISPLAY_CONTROL ||| s1.display_control)))

/-- `LCD_I2C::CursorBlinkOn`. -/
def LCD_I2C.CursorBlinkOn (s : LCD_I2C) : LCD_I2C × List Event :=
  let s1 := { s with display_control := toByte (s.display_control ||| BLINK_ON) }
  (s1, s1.Send_Command (toByte (DISPLAY_CONTROL ||| s1.display_control)))

/-- `LCD_I2C::CursorBlinkOff`. -/
def LCD_I2C.CursorBlinkOff (s : LCD_I2C) : LCD_I2C × List Event :=
  let s1 := { s with display_control := toByte (s.display_control &&& bitNot BLINK_ON) }
  (s1, s1.Send_Command (toByte (DISPLAY_CONTROL ||| s1.display_control)))

/-- `LCD_I2C::SetTextLeftToRight`. -/
def LCD_I2C.SetTextLeftToRight (s : LCD_I2C) : LCD_I2C × List Event :=
  let s1 := { s with display_mode := toByte (s.display_mode ||| ENTRY_LEFT) }
  (s1, s1.Send_Command (toByte (ENTRY_MODE_SET ||| s1.display_mode)))

/-- `LCD_I2C::SetTextRightToLeft`. -/
def LCD_I2C.SetTextRightToLeft (s : LCD_I2C) : LCD_I2C × List Event :=
  let s1 := { s with display_mode := toByte (s.display_mode &&& bitNot ENTRY_LEFT) }
  (s1, s1.Send_Command (toByte (ENTRY_MODE_SET ||| s1.display_mode)))

/-- `LCD_I2C::Clear`. -/
def LCD_I2C.Clear (s : LCD_I2C) : List Event :=
  s.Send_Command CLEAR_DISPLAY

/-- `LCD_I2C::Home`. -/
def LCD_I2C.Home (s : LCD_I2C) : List Event :=
  s.Send_Command RETURN_HOME

/-- The initialiser of `static const std::array ROW_OFFSETS` (a
`std::array<int, 4>`), evaluated with the `columns` of the object on which
`SetCursor` is first called. -/
def LCD_I2C.ROW_OFFSETS_init (s : LCD_I2C) : List Nat :=
  [0x00, 0x40, 0x00 + s.columns, 0x40 + s.columns]

/-- `LCD_I2C::SetCursor`. The static table is initialised on the first call of
the program and reused afterwards. `ROW_OFFSETS.at(row)` throws
`std::out_of_range` for `row ≥ 4`; the function is `noexcept`, so the program
terminates (`none`) before anything is sent. -/
def LCD_I2C.SetCursor (g : Statics) (s : LCD_I2C) (row column : Nat) :
    Statics × Option (List Event) :=
  let offsets := match g.ROW_OFFSETS with
    | some t => t
    | none => s.ROW_OFFSETS_init
  let g1 : Statics := { ROW_OFFSETS := some offsets }
  let row := min s.rows row
  let column := min s.columns column
  match offsets.get? row with
  | none => (g1, none)
  | some off => (g1, some (s.Send_Command (toByte (SET_DDRAM_ADDR ||| (off + column)))))

/-- `LCD_I2C::PrintChar`. -/
def LCD_I2C.PrintChar (s : LCD_I2C) (character : Nat) : List Event :=
  s.Send_Char character

/-- `LCD_I2C::PrintString`: the range-`for` over the characters of `str`, each
`char` converted to `byte` at the call of `PrintChar`. -/
def LCD_I2C.PrintString (s : LCD_I2C) : List Nat → List Event
  | [] => []
  | c :: str => s.PrintChar (toByte c) ++ LCD_I2C.PrintString s str

/-- `LCD_I2C::PrintCustomChar`. -/
def LCD_I2C.PrintCustomChar (s : LCD_I2C) (location : Nat) : List Event :=
  s.Send_Register_Select location

/-- `MAX_CUSTOM_CHARS` of `CreateCustomChar`. -/
def LCD_I2C.MAX_CUSTOM_CHARS : Nat := 8

/-- The loop `for (size_t i = 0; i < CUSTOM_SYMBOL_SIZE; ++i)` of
`CreateCustomChar`, from index `i` with `n` iterations left;
`char_map.at(i)` is in range for every `i < 8`. -/
def LCD_I2C.CreateCustomChar_loop (s : LCD_I2C) (char_map : LCD_I2C.array) :
    Nat → Nat → List Event
  | _, 0 => []
  | i, n + 1 =>
    (if h : i < 8 then s.Send_Register_Select (char_map ⟨i, h⟩) else [])
      ++ LCD_I2C.CreateCustomChar_loop s char_map (i + 1) n

/-- `LCD_I2C::CreateCustomChar`. -/
def LCD_I2C.CreateCustomChar (s : LCD_I2C) (location : Nat) (char_map : LCD_I2C.array) :
    List Event :=
  let location := min LCD_I2C.MAX_CUSTOM_CHARS location
  s.Send_Command (toByte (SET_CGRAM_ADDR ||| (location <<< 3)))
    ++ LCD_I2C.CreateCustomChar_loop s char_map 0 CUSTOM_SYMBOL_SIZE

/-- `LCD_I2C::Init`. -/
def LCD_I2C.Init (s : LCD_I2C) : LCD_I2C × List Event :=
  let s1 := { s with
    display_mode := toByte (ENTRY_LEFT ||| ENTRY_SHIFT_DECREMENT)
    display_function := toByte (MODE_4_BIT ||| LINE_2 ||| DOTS_5x8)
    display_control := toByte (DISPLAY_ON ||| CURSOR_OFF ||| BLINK_OFF) }
  let e1 := s1.Send_Command 0x03
  let e2 := s1.Send_Command 0x03
  let e3 := s1.Send_Command 0x03
  let e4 := s1.Send_Command 0x02
  let e5 := s1.Send_Command (toByte (ENTRY_MODE_SET ||| s1.display_mode))
  let e6 := s1.Send_Command (toByte (FUNCTION_SET ||| s1.display_function))
  let r := s1.DisplayOn
  (r.1, e1 ++ e2 ++ e3 ++ e4 ++ e5 ++ e6 ++ r.2 ++ r.1.Clear ++ r.1.Home)

/-- `BAUD_RATE` of the constructor. -/
def LCD_I2C.BAUD_RATE : Nat := 100000

/-- The constructor `LCD_I2C::LCD_I2C(address, columns, rows, I2C, SDA, SCL)`.
The members without a mem-initialiser are value-initialised to 0 by their
default member initialisers `{}`. -/
def LCD_I2C.ctor (address columns rows I2C SDA SCL : Nat) : LCD_I2C × List Event :=
  let s0 : LCD_I2C :=
    { address := address, columns := columns, rows := rows, backlight := NO_BACKLIGHT,
      display_function := 0, display_control := 0, display_mode := 0,
      I2C_instance := I2C }
  let r := s0.Init
  (r.1,
    [Event.i2c_init I2C LCD_I2C.BAUD_RATE,
     Event.gpio_set_function_I2C SDA,
     Event.gpio_set_function_I2C SCL,
     Event.gpio_pull_up SDA,
     Event.gpio_pull_up SCL] ++ r.2)

/-! ## Programs: sequences of public calls on one object -/

/-- A call of a public member function, with its arguments. -/
inductive Op where
  | DisplayOn
  | DisplayOff
  | BacklightOn
  | BacklightOff
  | SetBacklight (light_on : Bool)
  | CursorOn
  | CursorOff
  | CursorBlinkOn
  | CursorBlinkOff
  | SetTextLeftToRight
  | SetTextRightToLeft
  | Clear
  | Home
  | SetCursor (row column : Nat)
  | PrintChar (character : Nat)
  | PrintString (str : List Nat)
  | PrintCustomChar (location : Nat)
  | CreateCustomChar (location : Nat) (char_map : LCD_I2C.array)

/-- One public call on the object `s` with statics `g`: the statics and the
object after the call, and the trace of the call (`none` when the call ends in
`std::terminate`). -/
def Op.call (g : Statics) (s : LCD_I2C) : Op → (Statics × LCD_I2C) × Option (List Event)
  | Op.DisplayOn => ((g, s.DisplayOn.1), some s.DisplayOn.2)
  | Op.DisplayOff => ((g, s.DisplayOff.1), some s.DisplayOff.2)
  | Op.BacklightOn => ((g, s.BacklightOn.1), some s.BacklightOn.2)
  | Op.BacklightOff => ((g, s.BacklightOff.1), some s.BacklightOff.2)
  | Op.SetBacklight light_on =>
    ((g, (s.SetBacklight light_on).1), some (s.SetBacklight light_on).2)
  | Op.CursorOn => ((g, s.CursorOn.1), some s.CursorOn.2)
  | Op.CursorOff => ((g, s.CursorOff.1), some s.CursorOff.2)
  | Op.CursorBlinkOn => ((g, s.CursorBlinkOn.1), some s.CursorBlinkOn.2)
  | Op.CursorBlinkOff => ((g, s.CursorBlinkOff.1), some s.CursorBlinkOff.2)
  | Op.SetTextLeftToRight => ((g, s.SetTextLeftToRight.1), some s.SetTextLeftToRight.2)
  | Op.SetTextRightToLeft => ((g, s.SetTextRightToLeft.1), some s.SetTextRightToLeft.2)
  | Op.Clear => ((g, s), some s.Clear)
  | Op.Home => ((g, s), some s.Home)
  | Op.SetCursor row column =>
    (((s.SetCursor g row column).1, s), (s.SetCursor g row column).2)
  | Op.PrintChar character => ((g, s), some (s.PrintChar character))
  | Op.PrintString str => ((g, s), some (s.PrintString str))
  | Op.PrintCustomChar location => ((g, s), some (s.PrintCustomChar location))
  | Op.CreateCustomChar location char_map =>
    ((g, s), some (s.CreateCustomChar location char_map))

/-- A sequence of public calls, in order. The result is the trace produced and
the state reached, `none` when a call terminated the program (the trace then
ends where the program stopped). -/
def run (g : Statics) (s : LCD_I2C) : List Op → List Event × Option (Statics × LCD_I2C)
  | [] => ([], some (g, s))
  | op :: ops =>
    match op.call g s with
    | (_, none) => ([], none)
    | ((g1, s1), some tr) => (tr ++ (run g1 s1 ops).1, (run g1 s1 ops).2)

/-! ## Observations on traces -/

/-- The data bytes written to the bus, in order. -/
def busWrites : List Event → List Nat
  | [] => []
  | Event.i2c_write_blocking _ _ d :: es => d :: busWrites es
  | _ :: es => busWrites es

/-- The enable pulses in a sequence of bus writes: every write with the ENABLE
bit set, paired with the write that follows it (if any). -/
def enablePulses : List Nat → List (Nat × Option Nat)
  | [] => []
  | w :: ws =>
    if w &&& ENABLE ≠ 0 then (w, ws.head?) :: enablePulses ws else enablePulses ws

/-- The row-offset table as the specification words it: row 0 → 0x00,
row 1 → 0x40, row 2 → columns, row 3 → 0x40 + columns. -/
def spec_offset (columns : Nat) : Nat → Nat
  | 0 => 0x00
  | 1 => 0x40
  | 2 => 0x00 + columns
  | 3 => 0x40 + columns
  | _ => 0

/-- The glyph `HEART` of the example programs. -/
def HEART : LCD_I2C.array
  | 0 => 0x00 | 1 => 0x0A | 2 => 0x1F | 3 => 0x1F
  | 4 => 0x1F | 5 => 0x0E | 6 => 0x04 | 7 => 0x00

/-- The object of `examples/16x2-Display/main.cpp` right after construction
(address 0x27, 16 columns, 2 rows; sample bus handle 0 and pins 4, 5). -/
def lcd16x2 : LCD_I2C := (LCD_I2C.ctor 0x27 16 2 0 4 5).1

/-- The object of `examples/20x4-Display/main.cpp` right after construction
(address 0x27, 20 columns, 4 rows; sample bus handle 0 and pins 4, 5). -/
def lcd20x4 : LCD_I2C := (LCD_I2C.ctor 0x27 20 4 0 4 5).1

/-- The first calls of `examples/16x2-Display/main.cpp`:
`CreateCustomChar(HEART_LOC, HEART)`, `BacklightOn()`, `SetCursor(0, 0)`,
`PrintString("RaspberryPi Pico")`. -/
def main16x2_ops : List Op :=
  [Op.CreateCustomChar 0 HEART, Op.BacklightOn, Op.SetCursor 0 0,
   Op.PrintString [0x52, 0x61, 0x73, 0x70, 0x62, 0x65, 0x72, 0x72, 0x79, 0x50, 0x69,
     0x20, 0x50, 0x69, 0x63, 0x6F]]

/-- Every byte written to the bus in the trace satisfies `P`. -/
def AllWrites (P : Nat → Prop) (tr : List Event) : Prop :=
  ∀ w, w ∈ busWrites tr → P w

/-- The shape of a byte the driver writes under backlight mask `bl`: a data
nibble `16 * k` in bits 4..7, a mode bit `m` in bit 0, the mask, and possibly
the ENABLE bit. -/
def driverWrite (bl w : Nat) : Prop :=
  ∃ k m, k < 16 ∧ m < 2 ∧
    (w = (16 * k ||| m) ||| bl ∨ w = ((16 * k ||| m) ||| bl) ||| ENABLE)

/-- The backlight member holds one of its two values. -/
def backlightValid (s : LCD_I2C) : Prop :=
  s.backlight = NO_BACKLIGHT ∨ s.backlight = BACKLIGHT

/-- State invariant of a program with one object built with `columns` and
`rows`: the geometry is unchanged and the static table, once initialised, holds
the offsets computed from `columns`. -/
def SessionInv (columns rows : Nat) (g : Statics) (s : LCD_I2C) : Prop :=
  s.columns = columns ∧ s.rows = rows ∧
    (g.ROW_OFFSETS = none ∨
      g.ROW_OFFSETS = some [0x00, 0x40, 0x00 + columns, 0x40 + columns])

/-- The calls that switch the backlight off: `BacklightOff()` and
`SetBacklight(false)`. -/
def Op.switchesOff : Op → Prop
  | Op.BacklightOff => True
  | Op.SetBacklight false => True
  | _ => False

/-- The calls that switch the backlight on: `BacklightOn()` and
`SetBacklight(true)`. -/
def Op.switchesOn : Op → Prop
  | Op.BacklightOn => True
  | Op.SetBacklight true => True
  | _ => False

/-- The number of enable pulses of a trace. -/
def pulseCount (tr : List Event) : Nat := (enablePulses (busWrites tr)).length

/-- Between `old` and `new`, bit `B` takes the value `v` and no other bit
changes. -/
def onlyBit (B old new v : Nat) : Prop :=
  new &&& bitNot B = old &&& bitNot B ∧ new &&& B = v

/-- A second object for programs with two displays: address 0x26, 16 columns,
4 rows (sample bus handle 0 and pins 4, 5), right after construction. -/
def lcd16x4 : LCD_I2C := (LCD_I2C.ctor 0x26 16 4 0 4 5).1

/-- The bytes the controller latches: the bus writes with the ENABLE bit set
(the falling edge follows with the next write). -/
def latched (ws : List Nat) : List Nat :=
  ws.filter fun w => decide (w &&& ENABLE ≠ 0)

/-- The 4-bit framing of the HD44780: two consecutive latched bytes make one
transmitted byte, high nibble first; the register-select bit of the first
gives the mode. The result lists (mode, value). -/
def decodeFrames : List Nat → List (Nat × Nat)
  | h :: l :: rest =>
    (h &&& REGISTER_SELECT, (h &&& 0xF0) ||| ((l &&& 0xF0) >>> 4)) :: decodeFrames rest
  | _ => []

/-- The (mode, value) pairs transmitted in a trace. -/
def framesSent (tr : List Event) : List (Nat × Nat) :=
  decodeFrames (latched (busWrites tr))

/-- The command bytes transmitted in a trace: the values of the frames with
mode COMMAND. -/
def commandsSent (tr : List Event) : List Nat :=
  ((framesSent tr).filter fun f => decide (f.1 = COMMAND)).map Prod.snd

/-- A display on/off control command: `0000 1DCB`. -/
def isDisplayControl (c : Nat) : Bool := decide (c &&& 0xF8 = DISPLAY_CONTROL)

/-- An entry mode set command: `0000 01IS`. -/
def isEntryModeSet (c : Nat) : Bool := decide (c &&& 0xFC = ENTRY_MODE_SET)

/-- The most recent command of a kind transmitted in a trace. -/
def lastCommand (p : Nat → Bool) (tr : List Event) : Option Nat :=
  ((commandsSent tr).filter p).getLast?

/-- A trace that ends at a frame boundary and transmits no command. -/
def NoCommand (tr : List Event) : Prop :=
  (latched (busWrites tr)).length % 2 = 0 ∧ commandsSent tr = []

/-- The stored flags are the last ones transmitted in the trace `tr`: the trace
ends at a frame boundary, the most recent display-control command carries
display_control, the most recent entry-mode command carries display_mode, and
the most recent byte on the bus carries the backlight member in bit 0x08. -/
def FlagInv (tr : List Event) (s : LCD_I2C) : Prop :=
  (latched (busWrites tr)).length % 2 = 0
  ∧ s.display_control < 8
  ∧ lastCommand isDisplayControl tr = some (DISPLAY_CONTROL ||| s.display_control)
  ∧ s.display_mode < 4
  ∧ lastCommand isEntryModeSet tr = some (ENTRY_MODE_SET ||| s.display_mode)
  ∧ backlightValid s
  ∧ ∃ w, (busWrites tr).getLast? = some w ∧ w &&& BACKLIGHT = s.backlight

/-- The calls `CursorOn()`, `SetTextRightToLeft()`, `BacklightOn()`,
`PrintChar('A')`, `DisplayOff()`, `DisplayOn()`. -/
def flags_ops : List Op :=
  [Op.CursorOn, Op.SetTextRightToLeft, Op.BacklightOn, Op.PrintChar 0x41, Op.DisplayOff,
   Op.DisplayOn]

/-- A bus transport: the value that the SDK call
`i2c_write_blocking(i2c, addr, &data, 1, false)` returns for the one-byte write
of `data`, the number of bytes written or a negative error code. -/
abbrev Transport := Nat → Nat → Nat → Int

/-- A transport on which every write succeeds (one byte written). -/
def okBus : Transport := fun _ _ _ => 1

/-- A transport with no device at any address: every write fails with the
error code -1. -/
def deadBus : Transport := fun _ _ _ => -1

/-- What the transport reports for each bus write of a trace, in order. -/
def transportResults (bus : Transport) : List Event → List Int
  | [] => []
  | Event.i2c_write_blocking i a d :: es => bus i a d :: transportResults bus es
  | _ :: es => transportResults bus es

/-- `LCD_I2C::I2C_Write_Byte` run against a transport: its trace and what it
hands to its caller. The call of `i2c_write_blocking` is an expression
statement, its value is dropped; the function is `void`. -/
def LCD_I2C.I2C_Write_Byte_on (bus : Transport) (s : LCD_I2C) (val : Nat) :
    List Event × Unit :=
  let data := toByte (val ||| s.backlight)
  let _result : Int := bus s.I2C_instance s.address data
  ([Event.i2c_write_blocking s.I2C_instance s.address data], ())

/-- `LCD_I2C::Pulse_Enable` run against a transport. -/
def LCD_I2C.Pulse_Enable_on (bus : Transport) (s : LCD_I2C) (val : Nat) :
    List Event × Unit :=
  ([Event.sleep_us LCD_I2C.DELAY]
    ++ (s.I2C_Write_Byte_on bus (toByte (val ||| ENABLE))).1
    ++ [Event.sleep_us LCD_I2C.DELAY]
    ++ (s.I2C_Write_Byte_on bus (toByte (val &&& bitNot ENABLE))).1
    ++ [Event.sleep_us LCD_I2C.DELAY], ())

/-- `LCD_I2C::Send_Nibble` run against a transport. -/
def LCD_I2C.Send_Nibble_on (bus : Transport) (s : LCD_I2C) (val : Nat) :
    List Event × Unit :=
  ((s.I2C_Write_Byte_on bus val).1 ++ (s.Pulse_Enable_on bus val).1, ())

/-- `LCD_I2C::Send_Byte` run against a transport. -/
def LCD_I2C.Send_Byte_on (bus : Transport) (s : LCD_I2C) (val mode : Nat) :
    List Event × Unit :=
  let high := toByte (val &&& LCD_I2C.UPPER_NIBBLE)
  let low := toByte ((val <<< 4) &&& LCD_I2C.UPPER_NIBBLE)
  ((s.Send_Nibble_on bus (toByte (high ||| mode))).1
    ++ (s.Send_Nibble_on bus (toByte (low ||| mode))).1, ())

/-- `LCD_I2C::BacklightOn` run against a transport: the object after the call,
the trace, and what the caller is handed. -/
def LCD_I2C.BacklightOn_on (bus : Transport) (s : LCD_I2C) :
    (LCD_I2C × List Event) × Unit :=
  let s1 := { s with backlight := BACKLIGHT }
  ((s1, (s1.I2C_Write_Byte_on bus s1.backlight).1), ())

/-- `LCD_I2C::Send_Command` run against a transport. -/
def LCD_I2C.Send_Command_on (bus : Transport) (s : LCD_I2C) (val : Nat) :
    List Event × Unit :=
  ((s.Send_Byte_on bus val COMMAND).1, ())

/-- `LCD_I2C::Send_Char` run against a transport. -/
def LCD_I2C.Send_Char_on (bus : Transport) (s : LCD_I2C) (val : Nat) :
    List Event × Unit :=
  ((s.Send_Byte_on bus val CHAR).1, ())

/-- `LCD_I2C::Send_Register_Select` run against a transport. -/
def LCD_I2C.Send_Register_Select_on (bus : Transport) (s : LCD_I2C) (val : Nat) :
    List Event × Unit :=
  ((s.Send_Byte_on bus val REGISTER_SELECT).1, ())

/-- `LCD_I2C::DisplayOn` run against a transport. -/
def LCD_I2C.DisplayOn_on (bus : Transport) (s : LCD_I2C) :
    (LCD_I2C × List Event) × Unit :=
  let s1 := { s with display_control := toByte (s.display_control ||| DISPLAY_ON) }
  ((s1, (s1.Send_Command_on bus (toByte (DISPLAY_CONTROL ||| s1.display_control))).1), ())

/-- `LCD_I2C::DisplayOff` run against a transport. -/
def LCD_I2C.DisplayOff_on (bus : Transport) (s : LCD_I2C) :
    (LCD_I2C × List Event) × Unit :=
  let s1 := { s with display_control := toByte (s.display_control &&& bitNot DISPLAY_ON) }
  ((s1, (s1.Send_Command_on bus (toByte (DISPLAY_CONTROL ||| s1.display_control))).1), ())

/-- `LCD_I2C::BacklightOff` run against a transport. -/
def LCD_I2C.BacklightOff_on (bus : Transport) (s : LCD_I2C) :
    (LCD_I2C × List Event) × Unit :=
  let s1 := { s with backlight := NO_BACKLIGHT }
  ((s1, (s1.I2C_Write_Byte_on bus s1.backlight).1), ())

/-- `LCD_I2C::SetBacklight` run against a transport. -/
def LCD_I2C.SetBacklight_on (bus : Transport) (s : LCD_I2C) (light_on : Bool) :
    (LCD_I2C × List Event) × Unit :=
  if light_on then s.BacklightOn_on bus else s.BacklightOff_on bus

/-- `LCD_I2C::CursorOn` run against a transport. -/
def LCD_I2C.CursorOn_on (bus : Transport) (s : LCD_I2C) :
    (LCD_I2C × List Event) × Unit :=
  let s1 := { s with display_control := toByte (s.display_control ||| CURSOR_ON) }
  ((s1, (s1.Send_Command_on bus (toByte (DISPLAY_CONTROL ||| s1.display_control))).1), ())

/-- `LCD_I2C::CursorOff` run against a transport. -/
def LCD_I2C.CursorOff_on (bus : Transport) (s : LCD_I2C) :
    (LCD_I2C × List Event) × Unit :=
  let s1 := { s with display_control := toByte (s.display_control &&& bitNot CURSOR_ON) }
  ((s1, (s1.Send_Command_on bus (toByte (DISPLAY_CONTROL ||| s1.display_control))).1), ())

/-- `LCD_I2C::CursorBlinkOn` run against a transport. -/
def LCD_I2C.CursorBlinkOn_on (bus : Transport) (s : LCD_I2C) :
    (LCD_I2C × List Event) × Unit :=
  let s1 := { s with display_control := toByte (s.display_control ||| BLINK_ON) }
  ((s1, (s1.Send_Command_on bus (toByte (DISPLAY_CONTROL ||| s1.display_control))).1), ())

/-- `LCD_I2C::CursorBlinkOff` run against a transport. -/
def LCD_I2C.CursorBlinkOff_on (bus : Transport) (s : LCD_I2C) :
    (LCD_I2C × List Event) × Unit :=
  let s1 := { s with display_control := toByte (s.display_control &&& bitNot BLINK_ON) }
  ((s1, (s1.Send_Command_on bus (toByte (DISPLAY_CONTROL ||| s1.display_control))).1), ())

/-- `LCD_I2C::SetTextLeftToRight` run against a transport. -/
def LCD_I2C.SetTextLeftToRight_on (bus : Transport) (s : LCD_I2C) :
    (LCD_I2C × List Event) × Unit :=
  let s1 := { s with display_mode := toByte (s.display_mode ||| ENTRY_LEFT) }
  ((s1, (s1.Send_Command_on bus (toByte (ENTRY_MODE_SET ||| s1.display_mode))).1), ())

/-- `LCD_I2C::SetTextRightToLeft` run against a transport. -/
def LCD_I2C.SetTextRightToLeft_on (bus : Transport) (s : LCD_I2C) :
    (LCD_I2C × List Event) × Unit :=
  let s1 := { s with display_mode := toByte (s.display_mode &&& bitNot ENTRY_LEFT) }
  ((s1, (s1.Send_Command_on bus (toByte (ENTRY_MODE_SET ||| s1.display_mode))).1), ())

/-- `LCD_I2C::Clear` run against a transport. -/
def LCD_I2C.Clear_on (bus : Transport) (s : LCD_I2C) : List Event × Unit :=
  ((s.Send_Command_on bus CLEAR_DISPLAY).1, ())

/-- `LCD_I2C::Home` run against a transport. -/
def LCD_I2C.Home_on (bus : Transport) (s : LCD_I2C) : List Event × Unit :=
  ((s.Send_Command_on bus RETURN_HOME).1, ())

/-- `LCD_I2C::SetCursor` run against a transport: the statics after the call,
and the trace with what the caller is handed, `none` when the call ends in
`std::terminate`. -/
def LCD_I2C.SetCursor_on (bus : Transport) (g : Statics) (s : LCD_I2C) (row column : Nat) :
    Statics × Option (List Event × Unit) :=
  let offsets := match g.ROW_OFFSETS with
    | some t => t
    | none => s.ROW_OFFSETS_init
  let g1 : Statics := { ROW_OFFSETS := some offsets }
  let row := min s.rows row
  let column := min s.columns column
  match offsets.get? row with
  | none => (g1, none)
  | some off =>
    (g1, some ((s.Send_Command_on bus (toByte (SET_DDRAM_ADDR ||| (off + column)))).1, ()))

/-- `LCD_I2C::PrintChar` run against a transport. -/
def LCD_I2C.PrintChar_on (bus : Transport) (s : LCD_I2C) (character : Nat) :
    List Event × Unit :=
  ((s.Send_Char_on bus character).1, ())

/-- `LCD_I2C::PrintString` run against a transport. -/
def LCD_I2C.PrintString_on (bus : Transport) (s : LCD_I2C) : List Nat → List Event × Unit
  | [] => ([], ())
  | c :: str =>
    ((s.PrintChar_on bus (toByte c)).1 ++ (LCD_I2C.PrintString_on bus s str).1, ())

/-- `LCD_I2C::PrintCustomChar` run against a transport. -/
def LCD_I2C.PrintCustomChar_on (bus : Transport) (s : LCD_I2C) (location : Nat) :
    List Event × Unit :=
  ((s.Send_Register_Select_on bus location).1, ())

/-- The loop of `CreateCustomChar` run against a transport. -/
def LCD_I2C.CreateCustomChar_loop_on (bus : Transport) (s : LCD_I2C)
    (char_map : LCD_I2C.array) : Nat → Nat → List Event × Unit
  | _, 0 => ([], ())
  | i, n + 1 =>
    ((if h : i < 8 then (s.Send_Register_Select_on bus (char_map ⟨i, h⟩)).1 else [])
      ++ (LCD_I2C.CreateCustomChar_loop_on bus s char_map (i + 1) n).1, ())

/-- `LCD_I2C::CreateCustomChar` run against a transport. -/
def LCD_I2C.CreateCustomChar_on (bus : Transport) (s : LCD_I2C) (location : Nat)
    (char_map : LCD_I2C.array) : List Event × Unit :=
  let location := min LCD_I2C.MAX_CUSTOM_CHARS location
  ((s.Send_Command_on bus (toByte (SET_CGRAM_ADDR ||| (location <<< 3)))).1
    ++ (LCD_I2C.CreateCustomChar_loop_on bus s char_map 0 CUSTOM_SYMBOL_SIZE).1, ())

/-- `LCD_I2C::Init` run against a transport. -/
def LCD_I2C.Init_on (bus : Transport) (s : LCD_I2C) : (LCD_I2C × List Event) × Unit :=
  let s1 := { s with
    display_mode := toByte (ENTRY_LEFT ||| ENTRY_SHIFT_DECREMENT)
    display_function := toByte (MODE_4_BIT ||| LINE_2 ||| DOTS_5x8)
    display_control := toByte (DISPLAY_ON ||| CURSOR_OFF ||| BLINK_OFF) }
  let e1 := (s1.Send_Command_on bus 0x03).1
  let e2 := (s1.Send_Command_on bus 0x03).1
  let e3 := (s1.Send_Command_on bus 0x03).1
  let e4 := (s1.Send_Command_on bus 0x02).1
  let e5 := (s1.Send_Command_on bus (toByte (ENTRY_MODE_SET ||| s1.display_mode))).1
  let e6 := (s1.Send_Command_on bus (toByte (FUNCTION_SET ||| s1.display_function))).1
  let r := (s1.DisplayOn_on bus).1
  ((r.1, e1 ++ e2 ++ e3 ++ e4 ++ e5 ++ e6 ++ r.2 ++ (r.1.Clear_on bus).1
    ++ (r.1.Home_on bus).1), ())

/-- The constructor run against a transport: the object built and the trace. -/
def LCD_I2C.ctor_on (bus : Transport) (address columns rows I2C SDA SCL : Nat) :
    LCD_I2C × List Event :=
  let s0 : LCD_I2C :=
    { address := address, columns := columns, rows := rows, backlight := NO_BACKLIGHT,
      display_function := 0, display_control := 0, display_mode := 0,
      I2C_instance := I2C }
  let r := (s0.Init_on bus).1
  (r.1,
    [Event.i2c_init I2C LCD_I2C.BAUD_RATE,
     Event.gpio_set_function_I2C SDA,
     Event.gpio_set_function_I2C SCL,
     Event.gpio_pull_up SDA,
     Event.gpio_pull_up SCL] ++ r.2)

/-- One public call run against a transport: the statics and the object after
the call, and the trace with what the caller is handed (`none` when the call
ends in `std::terminate`). Every public member function is `void`. -/
def Op.call_on (bus : Transport) (g : Statics) (s : LCD_I2C) :
    Op → (Statics × LCD_I2C) × Option (List Event × Unit)
  | Op.DisplayOn => ((g, (s.DisplayOn_on bus).1.1), some ((s.DisplayOn_on bus).1.2, ()))
  | Op.DisplayOff => ((g, (s.DisplayOff_on bus).1.1), some ((s.DisplayOff_on bus).1.2, ()))
  | Op.BacklightOn => ((g, (s.BacklightOn_on bus).1.1), some ((s.BacklightOn_on bus).1.2, ()))
  | Op.BacklightOff =>
    ((g, (s.BacklightOff_on bus).1.1), some ((s.BacklightOff_on bus).1.2, ()))
  | Op.SetBacklight light_on =>
    ((g, (s.SetBacklight_on bus light_on).1.1), some ((s.SetBacklight_on bus light_on).1.2, ()))
  | Op.CursorOn => ((g, (s.CursorOn_on bus).1.1), some ((s.CursorOn_on bus).1.2, ()))
  | Op.CursorOff => ((g, (s.CursorOff_on bus).1.1), some ((s.CursorOff_on bus).1.2, ()))
  | Op.CursorBlinkOn =>
    ((g, (s.CursorBlinkOn_on bus).1.1), some ((s.CursorBlinkOn_on bus).1.2, ()))
  | Op.CursorBlinkOff =>
    ((g, (s.CursorBlinkOff_on bus).1.1), some ((s.CursorBlinkOff_on bus).1.2, ()))
  | Op.SetTextLeftToRight =>
    ((g, (s.SetTextLeftToRight_on bus).1.1), some ((s.SetTextLeftToRight_on bus).1.2, ()))
  | Op.SetTextRightToLeft =>
    ((g, (s.SetTextRightToLeft_on bus).1.1), some ((s.SetTextRightToLeft_on bus).1.2, ()))
  | Op.Clear => ((g, s), some (s.Clear_on bus))
  | Op.Home => ((g, s), some (s.Home_on bus))
  | Op.SetCursor row column =>
    (((s.SetCursor_on bus g row column).1, s), (s.SetCursor_on bus g row column).2)
  | Op.PrintChar character => ((g, s), some (s.PrintChar_on bus character))
  | Op.PrintString str => ((g, s), some (s.PrintString_on bus str))
  | Op.PrintCustomChar location => ((g, s), some (s.PrintCustomChar_on bus location))
  | Op.CreateCustomChar location char_map =>
    ((g, s), some (s.CreateCustomChar_on bus location char_map))

/-- A sequence of public calls run against a transport. -/
def run_on (bus : Transport) (g : Statics) (s : LCD_I2C) :
    List Op → List Event × Option (Statics × LCD_I2C)
  | [] => ([], some (g, s))
  | op :: ops =>
    match op.call_on bus g s with
    | (_, none) => ([], none)
    | ((g1, s1), some (tr, _)) => (tr ++ (run_on bus g1 s1 ops).1, (run_on bus g1 s1 ops).2)

/-! # Theorems -/

/-! ## Byte arithmetic and the codec -/

/-- The six bus writes of `Send_Byte`, as the code computes them. -/
theorem busWrites_Send_Byte (s : LCD_I2C) (v mode : Nat) :
    busWrites (s.Send_Byte v mode) =
      [toByte (toByte (toByte (v &&& 0xF0) ||| mode) ||| s.backlight),
       toByte (toByte (toByte (toByte (v &&& 0xF0) ||| mode) ||| ENABLE) ||| s.backlight),
       toByte (toByte (toByte (toByte (v &&& 0xF0) ||| mode) &&& bitNot ENABLE)
         ||| s.backlight),
       toByte (toByte (toByte ((v <<< 4) &&& 0xF0) ||| mode) ||| s.backlight),
       toByte (toByte (toByte (toByte ((v <<< 4) &&& 0xF0) ||| mode) ||| ENABLE)
         ||| s.backlight),
       toByte (toByte (toByte (toByte ((v <<< 4) &&& 0xF0) ||| mode) &&& bitNot ENABLE)
         ||| s.backlight)] := rfl

/-- Byte arithmetic of one nibble `16 * k`: with a mode bit `m ≤ 1` and a
backlight mask `8 * b`, the three values written for it and their control
bits. -/
theorem nibble_arith : ∀ k, k < 16 → ∀ m, m < 2 → ∀ b, b < 2 →
    toByte (toByte (toByte (16 * k) ||| m) ||| 8 * b) = (16 * k ||| m) ||| 8 * b
    ∧ toByte (toByte (toByte (toByte (16 * k) ||| m) ||| ENABLE) ||| 8 * b)
        = ((16 * k ||| m) ||| 8 * b) ||| ENABLE
    ∧ toByte (toByte (toByte (toByte (16 * k) ||| m) &&& bitNot ENABLE) ||| 8 * b)
        = (16 * k ||| m) ||| 8 * b
    ∧ ((16 * k ||| m) ||| 8 * b) &&& ENABLE = 0
    ∧ (((16 * k ||| m) ||| 8 * b) ||| ENABLE) &&& ENABLE ≠ 0
    ∧ ((16 * k ||| m) ||| 8 * b) &&& BACKLIGHT = 8 * b
    ∧ (((16 * k ||| m) ||| 8 * b) ||| ENABLE) &&& BACKLIGHT = 8 * b
    ∧ ((16 * k ||| m) ||| 8 * b) &&& READ_WRITE = 0
    ∧ (((16 * k ||| m) ||| 8 * b) ||| ENABLE) &&& READ_WRITE = 0 := by
  intro k hk m hm b hb
  interval_cases k <;> interval_cases m <;> interval_cases b <;> decide

/-- Masking with `0xF0` leaves a multiple of 16 below 256. -/
theorem and_F0_nibble (v : Nat) : ∃ k, k < 16 ∧ v &&& 0xF0 = 16 * k := by
  have h1 : (v &&& 0xF0) &&& (2 ^ 4 - 1) = 0 := by
    rw [Nat.and_assoc]
    have : (0xF0 &&& (2 ^ 4 - 1) : Nat) = 0 := by decide
    rw [this, Nat.and_zero]
  rw [Nat.and_pow_two_sub_one_eq_mod] at h1
  have h2 : v &&& 0xF0 ≤ 0xF0 := Nat.and_le_right
  exact ⟨(v &&& 0xF0) / 16, by omega, by omega⟩

/-- The three modes are the bit values 0 and 1. -/
theorem mode_cases {mode : Nat}
    (hm : mode = COMMAND ∨ mode = CHAR ∨ mode = REGISTER_SELECT) : mode < 2 := by
  rcases hm with h | h | h <;> subst h <;> decide

/-- The two backlight masks are `8 * 0` and `8 * 1`. -/
theorem backlight_cases {bl : Nat}
    (hb : bl = NO_BACKLIGHT ∨ bl = BACKLIGHT) : ∃ b, b < 2 ∧ bl = 8 * b := by
  rcases hb with h | h
  · exact ⟨0, by decide, h⟩
  · exact ⟨1, by decide, h⟩

/-! ## C1: `Send_Byte` is two enable pulses, high nibble first -/

/-- The enable pulses of `Send_Byte`: two, the high nibble first, each followed
by the same value with ENABLE clear. -/
theorem enablePulses_Send_Byte (s : LCD_I2C) (v mode : Nat) (hm : mode < 2)
    (hb : backlightValid s) :
    enablePulses (busWrites (s.Send_Byte v mode)) =
      [((((v &&& 0xF0) ||| mode) ||| s.backlight) ||| ENABLE,
          some (((v &&& 0xF0) ||| mode) ||| s.backlight)),
       (((((v <<< 4) &&& 0xF0) ||| mode) ||| s.backlight) ||| ENABLE,
          some ((((v <<< 4) &&& 0xF0) ||| mode) ||| s.backlight))]
    ∧ (((v &&& 0xF0) ||| mode) ||| s.backlight) &&& ENABLE = 0
    ∧ ((((v <<< 4) &&& 0xF0) ||| mode) ||| s.backlight) &&& ENABLE = 0 := by
  obtain ⟨k, hk, hH⟩ := and_F0_nibble v
  obtain ⟨j, hj, hL⟩ := and_F0_nibble (v <<< 4)
  obtain ⟨b, hb2, hbl⟩ := backlight_cases hb
  obtain ⟨a1, a2, a3, a4, a5, -⟩ := nibble_arith k hk mode hm b hb2
  obtain ⟨b1, b2, b3, b4, b5, -⟩ := nibble_arith j hj mode hm b hb2
  rw [busWrites_Send_Byte, hH, hL, hbl, a1, a2, a3, b1, b2, b3]
  simp [enablePulses, a4, a5, b4, b5]

/-- C1. For every value `v`, every mode among COMMAND, CHAR, REGISTER_SELECT and
both backlight states, the bus writes of `Send_Byte(v, mode)` contain exactly
two writes with the ENABLE bit set, each immediately followed by the write of
the same value with ENABLE clear; the first pulse carries `(v & 0xF0) | mode`
and the second `((v << 4) & 0xF0) | mode` (merged with the backlight mask).
For `v = 0xAB` the pulsed nibbles are `0xA0` then `0xB0`. -/
theorem C1_Send_Byte_two_enable_pulses (s : LCD_I2C) (v mode : Nat)
    (hm : mode = COMMAND ∨ mode = CHAR ∨ mode = REGISTER_SELECT)
    (hb : s.backlight = NO_BACKLIGHT ∨ s.backlight = BACKLIGHT) :
    enablePulses (busWrites (s.Send_Byte v mode)) =
      [((((v &&& 0xF0) ||| mode) ||| s.backlight) ||| ENABLE,
          some (((v &&& 0xF0) ||| mode) ||| s.backlight)),
       (((((v <<< 4) &&& 0xF0) ||| mode) ||| s.backlight) ||| ENABLE,
          some ((((v <<< 4) &&& 0xF0) ||| mode) ||| s.backlight))]
    ∧ (((v &&& 0xF0) ||| mode) ||| s.backlight) &&& ENABLE = 0
    ∧ ((((v <<< 4) &&& 0xF0) ||| mode) ||| s.backlight) &&& ENABLE = 0
    ∧ enablePulses (busWrites (s.Send_Byte 0xAB mode)) =
      [(((0xA0 ||| mode) ||| s.backlight) ||| ENABLE, some ((0xA0 ||| mode) ||| s.backlight)),
       (((0xB0 ||| mode) ||| s.backlight) ||| ENABLE,
          some ((0xB0 ||| mode) ||| s.backlight))] :=
  ⟨(enablePulses_Send_Byte s v mode (mode_cases hm) hb).1,
   (enablePulses_Send_Byte s v mode (mode_cases hm) hb).2.1,
   (enablePulses_Send_Byte s v mode (mode_cases hm) hb).2.2,
   (enablePulses_Send_Byte s 0xAB mode (mode_cases hm) hb).1⟩

/-- C1 at `v = 0xAB`, mode CHAR, on the 16x2 object with the backlight off: the
pulses are `0xA5` then `0xB5`, each followed by the value without ENABLE. -/
theorem C1_Send_Byte_two_enable_pulses_witness :
    enablePulses (busWrites (lcd16x2.Send_Byte 0xAB CHAR)) =
      [(0xA5, some 0xA1), (0xB5, some 0xB1)] :=
  (C1_Send_Byte_two_enable_pulses lcd16x2 0xAB CHAR (by decide) (by decide)).1

/-! ## C2, C3, C4: the clamps of `SetCursor` and `CreateCustomChar` -/

/-- C2. `std::min(rows, row)` lets `row = rows` through: for every object and
every `row ≥ rows`, `SetCursor(row, column)` behaves as `SetCursor(rows, column)`.
On the 16x2 object, `SetCursor(2, 0)` sends the command 0x90 (offset entry 2,
DDRAM address 16), not the command 0xC0 that `SetCursor(1, 0)` sends; on the
20x4 object, `SetCursor(4, 0)` indexes the four-entry table at 4 and the
program terminates. -/
theorem C2_SetCursor_row_equal_rows_not_clamped :
    (∀ (g : Statics) (s : LCD_I2C) (row column : Nat), s.rows ≤ row →
        s.SetCursor g row column = s.SetCursor g s.rows column)
    ∧ (lcd16x2.SetCursor Statics.start 2 0).2 = some (lcd16x2.Send_Command 0x90)
    ∧ (lcd16x2.SetCursor Statics.start 1 0).2 = some (lcd16x2.Send_Command 0xC0)
    ∧ (lcd16x2.SetCursor Statics.start 2 0).2 ≠ (lcd16x2.SetCursor Statics.start 1 0).2
    ∧ (lcd20x4.SetCursor Statics.start 4 0).2 = none := by
  refine ⟨?_, by decide, by decide, by decide, by decide⟩
  intro g s row column h
  simp only [LCD_I2C.SetCursor, Nat.min_eq_left h, Nat.min_self]

/-- C3. `std::min(columns, column)` lets `column = columns` through: for every
object and every `column ≥ columns`, `SetCursor(row, column)` behaves as
`SetCursor(row, columns)`. On the 16x2 object, `SetCursor(0, 16)` sends the
command 0x90 (DDRAM address 16), not the command 0x8F that `SetCursor(0, 15)`
sends. -/
theorem C3_SetCursor_column_equal_columns_not_clamped :
    (∀ (g : Statics) (s : LCD_I2C) (row column : Nat), s.columns ≤ column →
        s.SetCursor g row column = s.SetCursor g row s.columns)
    ∧ (lcd16x2.SetCursor Statics.start 0 16).2 = some (lcd16x2.Send_Command 0x90)
    ∧ (lcd16x2.SetCursor Statics.start 0 15).2 = some (lcd16x2.Send_Command 0x8F)
    ∧ (lcd16x2.SetCursor Statics.start 0 16).2
        ≠ (lcd16x2.SetCursor Statics.start 0 15).2 := by
  refine ⟨?_, by decide, by decide, by decide⟩
  intro g s row column h
  simp only [LCD_I2C.SetCursor, Nat.min_eq_left h, Nat.min_self]

/-- C4. `std::min(MAX_CUSTOM_CHARS, location)` lets `location = 8` through:
`8 << 3 = 0x40`, so for every object, pattern and `location ≥ 8`,
`CreateCustomChar(location, pattern)` sends the address command
`0x40 | 0x40 = 0x40` and its whole trace is that of
`CreateCustomChar(0, pattern)`. On the 16x2 object with the glyph `HEART` it is
not the trace of `CreateCustomChar(7, HEART)`, which starts with command
0x78. -/
theorem C4_CreateCustomChar_slot_8_aliases_slot_0 :
    (∀ (s : LCD_I2C) (location : Nat) (char_map : LCD_I2C.array), 8 ≤ location →
        s.CreateCustomChar location char_map = s.CreateCustomChar 0 char_map)
    ∧ lcd16x2.CreateCustomChar 8 HEART = lcd16x2.CreateCustomChar 0 HEART
    ∧ lcd16x2.CreateCustomChar 8 HEART ≠ lcd16x2.CreateCustomChar 7 HEART
    ∧ (lcd16x2.CreateCustomChar 8 HEART).take 12 = lcd16x2.Send_Command 0x40
    ∧ (lcd16x2.CreateCustomChar 7 HEART).take 12 = lcd16x2.Send_Command 0x78 := by
  refine ⟨?_, by decide, by decide, by decide, by decide⟩
  intro s location char_map h
  have h8 : min LCD_I2C.MAX_CUSTOM_CHARS location = 8 := Nat.min_eq_left h
  have h0 : min LCD_I2C.MAX_CUSTOM_CHARS 0 = 0 := by decide
  simp only [LCD_I2C.CreateCustomChar, h8, h0]
  rfl

/-! ## C5: `SetCursor` inside the display, and whose offsets it uses -/

/-- A public call keeps the invariant of a one-object program. -/
theorem SessionInv_call {columns rows : Nat} {g : Statics} {s : LCD_I2C} (op : Op)
    (h : SessionInv columns rows g s) :
    SessionInv columns rows (op.call g s).1.1 (op.call g s).1.2 := by
  obtain ⟨hc, hr, hg⟩ := h
  cases op
  case SetBacklight b => cases b <;> exact ⟨hc, hr, hg⟩
  case SetCursor row column =>
    refine ⟨hc, hr, Or.inr ?_⟩
    rcases hg with hg | hg
    · simp only [Op.call, LCD_I2C.SetCursor, hg, LCD_I2C.ROW_OFFSETS_init, hc]
      split <;> rfl
    · simp only [Op.call, LCD_I2C.SetCursor, hg]
      split <;> rfl
  all_goals exact ⟨hc, hr, hg⟩

/-- Every state reached by a sequence of public calls satisfies the invariant. -/
theorem SessionInv_run {columns rows : Nat} (ops : List Op) :
    ∀ (g : Statics) (s : LCD_I2C) (g1 : Statics) (s1 : LCD_I2C),
      SessionInv columns rows g s → (run g s ops).2 = some (g1, s1) →
        SessionInv columns rows g1 s1 := by
  induction ops with
  | nil =>
    intro g s g1 s1 h hrun
    simp only [run, Option.some.injEq, Prod.mk.injEq] at hrun
    obtain ⟨rfl, rfl⟩ := hrun
    exact h
  | cons op ops ih =>
    intro g s g1 s1 h hrun
    have hstep := SessionInv_call op h
    rw [run] at hrun
    split at hrun
    · simp at hrun
    · rename_i g2 s2 tr2 heq
      rw [heq] at hstep
      exact ih g2 s2 g1 s1 hstep hrun

/-- Under the invariant, `SetCursor` inside the display sends the one command
of the offset table. -/
theorem SetCursor_in_range {columns rows : Nat} {g : Statics} {s : LCD_I2C}
    (h : SessionInv columns rows g s) (row column : Nat)
    (hrows : rows ≤ 4) (hrow : row < rows) (hcol : column < columns) :
    (s.SetCursor g row column).2 =
      some (s.Send_Command
        (toByte (SET_DDRAM_ADDR ||| (spec_offset columns row + column)))) := by
  obtain ⟨hc, hr, hg⟩ := h
  have h1 : min rows row = row := by omega
  have h2 : min columns column = column := by omega
  have h4 : row < 4 := by omega
  rcases hg with hg | hg <;>
  · simp only [LCD_I2C.SetCursor, hg, LCD_I2C.ROW_OFFSETS_init, hc, hr, h1, h2]
    interval_cases row <;> rfl

/-- C5. The offsets of rows 2 and 3 are those of the object that called
`SetCursor` first in the program, not those of the object the call is made on.
The 20x4 object satisfies the conditions of the claim (rows ≤ 4, row 2 < rows,
column 0 < columns); once the 16x4 object has called `SetCursor`,
`SetCursor(2, 0)` on the 20x4 object sends the command 0x90 and not
`SET_DDRAM_ADDR | (offset(2) + 0) = 0x94`, and `SetCursor(3, 0)` sends 0xD0 and
not 0xD4. Where the table was initialised with the columns of the object
itself (every state of a program with one object), the call sends exactly one
command, `SET_DDRAM_ADDR | (offset(row) + column)` converted to `byte`, with
offset(0) = 0x00, offset(1) = 0x40, offset(2) = columns,
offset(3) = 0x40 + columns; for 16 columns and 2 rows, `SetCursor(1, 0)` sends
command 0xC0, pulsed as nibble `0xC0 | COMMAND` then nibble
`0x00 | COMMAND`. -/
theorem C5_SetCursor_offsets_of_first_caller :
    (lcd20x4.rows ≤ 4 ∧ 2 < lcd20x4.rows ∧ 3 < lcd20x4.rows ∧ 0 < lcd20x4.columns)
    ∧ (lcd16x4.SetCursor Statics.start 0 0).1
        = { ROW_OFFSETS := some [0x00, 0x40, 16, 0x50] }
    ∧ (lcd20x4.SetCursor (lcd16x4.SetCursor Statics.start 0 0).1 2 0).2
        = some (lcd20x4.Send_Command 0x90)
    ∧ toByte (SET_DDRAM_ADDR ||| (spec_offset lcd20x4.columns 2 + 0)) = 0x94
    ∧ (lcd20x4.SetCursor (lcd16x4.SetCursor Statics.start 0 0).1 2 0).2
        ≠ some (lcd20x4.Send_Command
            (toByte (SET_DDRAM_ADDR ||| (spec_offset lcd20x4.columns 2 + 0))))
    ∧ (lcd20x4.SetCursor (lcd16x4.SetCursor Statics.start 0 0).1 3 0).2
        = some (lcd20x4.Send_Command 0xD0)
    ∧ toByte (SET_DDRAM_ADDR ||| (spec_offset lcd20x4.columns 3 + 0)) = 0xD4
    ∧ (lcd20x4.SetCursor (lcd16x4.SetCursor Statics.start 0 0).1 3 0).2
        ≠ some (lcd20x4.Send_Command
            (toByte (SET_DDRAM_ADDR ||| (spec_offset lcd20x4.columns 3 + 0))))
    ∧ (∀ (address columns rows I2C SDA SCL : Nat) (ops : List Op) (g : Statics)
        (s : LCD_I2C) (row column : Nat),
        (run Statics.start (LCD_I2C.ctor address columns rows I2C SDA SCL).1 ops).2
            = some (g, s) →
          rows ≤ 4 → row < rows → column < columns →
            (s.SetCursor g row column).2 =
              some (s.Send_Command
                (toByte (SET_DDRAM_ADDR ||| (spec_offset columns row + column)))))
    ∧ (lcd16x2.SetCursor Statics.start 1 0).2 = some (lcd16x2.Send_Command 0xC0)
    ∧ enablePulses (busWrites (lcd16x2.Send_Command 0xC0)) =
        [((0xC0 ||| COMMAND) ||| ENABLE, some (0xC0 ||| COMMAND)),
         ((0x00 ||| COMMAND) ||| ENABLE, some (0x00 ||| COMMAND))] := by
  refine ⟨by decide, by decide, by decide, by decide, by decide, by decide, by decide,
    by decide, ?_, by decide, by decide⟩
  intro address columns rows I2C SDA SCL ops g s row column hrun hrows hrow hcol
  have h0 : SessionInv columns rows Statics.start
      (LCD_I2C.ctor address columns rows I2C SDA SCL).1 := ⟨rfl, rfl, Or.inl rfl⟩
  exact SetCursor_in_range (SessionInv_run ops _ _ g s h0 hrun) row column hrows hrow hcol

/-! ## C6: the backlight bit of every write -/

/-- The bus writes of a concatenation. -/
theorem busWrites_append (a b : List Event) :
    busWrites (a ++ b) = busWrites a ++ busWrites b := by
  induction a with
  | nil => rfl
  | cons e a ih => cases e <;> simp [busWrites, ih]

/-- The empty trace writes nothing. -/
theorem AllWrites_nil (P : Nat → Prop) : AllWrites P [] := by
  intro w hw
  simp [busWrites] at hw

/-- A property of every write holds for a concatenation when it holds for both parts. -/
theorem AllWrites_append {P : Nat → Prop} {a b : List Event}
    (ha : AllWrites P a) (hb : AllWrites P b) : AllWrites P (a ++ b) := by
  intro w hw
  rw [busWrites_append, List.mem_append] at hw
  exact hw.elim (ha w) (hb w)

/-- Every write of `Send_Byte` with a mode bit has the driver's shape. -/
theorem Send_Byte_driverWrite (s : LCD_I2C) (v mode : Nat) (hm : mode < 2)
    (hb : backlightValid s) : AllWrites (driverWrite s.backlight) (s.Send_Byte v mode) := by
  obtain ⟨k, hk, hH⟩ := and_F0_nibble v
  obtain ⟨j, hj, hL⟩ := and_F0_nibble (v <<< 4)
  obtain ⟨b, hb2, hbl⟩ := backlight_cases hb
  obtain ⟨a1, a2, a3, -⟩ := nibble_arith k hk mode hm b hb2
  obtain ⟨b1, b2, b3, -⟩ := nibble_arith j hj mode hm b hb2
  intro w hw
  rw [busWrites_Send_Byte, hH, hL, hbl, a1, a2, a3, b1, b2, b3] at hw
  simp only [List.mem_cons, List.mem_singleton, List.not_mem_nil, or_false] at hw
  rw [hbl]
  rcases hw with h | h | h | h | h | h
  · exact ⟨k, mode, hk, hm, Or.inl h⟩
  · exact ⟨k, mode, hk, hm, Or.inr h⟩
  · exact ⟨k, mode, hk, hm, Or.inl h⟩
  · exact ⟨j, mode, hj, hm, Or.inl h⟩
  · exact ⟨j, mode, hj, hm, Or.inr h⟩
  · exact ⟨j, mode, hj, hm, Or.inl h⟩

/-- Every write of `Send_Command` has the driver's shape. -/
theorem Send_Command_driverWrite (s : LCD_I2C) (v : Nat) (hb : backlightValid s) :
    AllWrites (driverWrite s.backlight) (s.Send_Command v) :=
  Send_Byte_driverWrite s v COMMAND (by decide) hb

/-- Every write of `Send_Char` has the driver's shape. -/
theorem Send_Char_driverWrite (s : LCD_I2C) (v : Nat) (hb : backlightValid s) :
    AllWrites (driverWrite s.backlight) (s.Send_Char v) :=
  Send_Byte_driverWrite s v CHAR (by decide) hb

/-- Every write of `Send_Register_Select` has the driver's shape. -/
theorem Send_Register_Select_driverWrite (s : LCD_I2C) (v : Nat) (hb : backlightValid s) :
    AllWrites (driverWrite s.backlight) (s.Send_Register_Select v) :=
  Send_Byte_driverWrite s v REGISTER_SELECT (by decide) hb

/-- Every write of `PrintString` has the driver's shape. -/
theorem PrintString_driverWrite (s : LCD_I2C) (str : List Nat) (hb : backlightValid s) :
    AllWrites (driverWrite s.backlight) (s.PrintString str) := by
  induction str with
  | nil => exact AllWrites_nil _
  | cons c str ih => exact AllWrites_append (Send_Char_driverWrite s _ hb) ih

/-- Every write of the loop of `CreateCustomChar` has the driver's shape. -/
theorem CreateCustomChar_loop_driverWrite (s : LCD_I2C) (char_map : LCD_I2C.array)
    (hb : backlightValid s) (n : Nat) :
    ∀ i, AllWrites (driverWrite s.backlight) (LCD_I2C.CreateCustomChar_loop s char_map i n) := by
  induction n with
  | zero => intro i; exact AllWrites_nil _
  | succ n ih =>
    intro i
    rw [LCD_I2C.CreateCustomChar_loop]
    refine AllWrites_append ?_ (ih (i + 1))
    split
    · exact Send_Register_Select_driverWrite s _ hb
    · exact AllWrites_nil _

/-- The single write of `BacklightOn` / `BacklightOff` is the mask itself. -/
theorem backlight_write_driverWrite (s : LCD_I2C) (hb : backlightValid s) :
    AllWrites (driverWrite s.backlight) (s.I2C_Write_Byte s.backlight) := by
  intro w hw
  simp only [LCD_I2C.I2C_Write_Byte, busWrites, List.mem_singleton] at hw
  refine ⟨0, 0, by decide, by decide, Or.inl ?_⟩
  rcases hb with h | h <;> rw [hw, h] <;> decide

/-- Every public call leaves the backlight member valid, and every byte it
writes has the driver's shape under the backlight mask after the call. -/
theorem call_driverWrite (op : Op) (g : Statics) (s : LCD_I2C) (hb : backlightValid s) :
    backlightValid (op.call g s).1.2 ∧
      ∀ tr, (op.call g s).2 = some tr →
        AllWrites (driverWrite (op.call g s).1.2.backlight) tr := by
  cases op
  case BacklightOn =>
    have h1 : backlightValid (s.BacklightOn).1 := Or.inr rfl
    exact ⟨h1, fun tr h => by
      simp only [Op.call, Option.some.injEq] at h
      subst h
      exact backlight_write_driverWrite _ h1⟩
  case BacklightOff =>
    have h1 : backlightValid (s.BacklightOff).1 := Or.inl rfl
    exact ⟨h1, fun tr h => by
      simp only [Op.call, Option.some.injEq] at h
      subst h
      exact backlight_write_driverWrite _ h1⟩
  case SetBacklight b =>
    cases b
    · have h1 : backlightValid (s.BacklightOff).1 := Or.inl rfl
      exact ⟨h1, fun tr h => by
        simp only [Op.call, Option.some.injEq] at h
        subst h
        exact backlight_write_driverWrite _ h1⟩
    · have h1 : backlightValid (s.BacklightOn).1 := Or.inr rfl
      exact ⟨h1, fun tr h => by
        simp only [Op.call, Option.some.injEq] at h
        subst h
        exact backlight_write_driverWrite _ h1⟩
  case SetCursor row column =>
    refine ⟨hb, fun tr h => ?_⟩
    simp only [Op.call, LCD_I2C.SetCursor] at h
    split at h
    · simp at h
    · simp only [Option.some.injEq] at h
      subst h
      exact Send_Command_driverWrite s _ hb
  case PrintString str =>
    refine ⟨hb, fun tr h => ?_⟩
    simp only [Op.call, Option.some.injEq] at h
    subst h
    exact PrintString_driverWrite s str hb
  case CreateCustomChar location char_map =>
    refine ⟨hb, fun tr h => ?_⟩
    simp only [Op.call, Option.some.injEq] at h
    subst h
    exact AllWrites_append (Send_Command_driverWrite s _ hb)
      (CreateCustomChar_loop_driverWrite s char_map hb _ 0)
  case DisplayOn =>
    refine ⟨hb, fun tr h => ?_⟩
    simp only [Op.call, Option.some.injEq] at h
    subst h
    exact Send_Command_driverWrite (s.DisplayOn).1 _ hb
  case DisplayOff =>
    refine ⟨hb, fun tr h => ?_⟩
    simp only [Op.call, Option.some.injEq] at h
    subst h
    exact Send_Command_driverWrite (s.DisplayOff).1 _ hb
  case CursorOn =>
    refine ⟨hb, fun tr h => ?_⟩
    simp only [Op.call, Option.some.injEq] at h
    subst h
    exact Send_Command_driverWrite (s.CursorOn).1 _ hb
  case CursorOff =>
    refine ⟨hb, fun tr h => ?_⟩
    simp only [Op.call, Option.some.injEq] at h
    subst h
    exact Send_Command_driverWrite (s.CursorOff).1 _ hb
  case CursorBlinkOn =>
    refine ⟨hb, fun tr h => ?_⟩
    simp only [Op.call, Option.some.injEq] at h
    subst h
    exact Send_Command_driverWrite (s.CursorBlinkOn).1 _ hb
  case CursorBlinkOff =>
    refine ⟨hb, fun tr h => ?_⟩
    simp only [Op.call, Option.some.injEq] at h
    subst h
    exact Send_Command_driverWrite (s.CursorBlinkOff).1 _ hb
  case SetTextLeftToRight =>
    refine ⟨hb, fun tr h => ?_⟩
    simp only [Op.call, Option.some.injEq] at h
    subst h
    exact Send_Command_driverWrite (s.SetTextLeftToRight).1 _ hb
  case SetTextRightToLeft =>
    refine ⟨hb, fun tr h => ?_⟩
    simp only [Op.call, Option.some.injEq] at h
    subst h
    exact Send_Command_driverWrite (s.SetTextRightToLeft).1 _ hb
  case Clear =>
    refine ⟨hb, fun tr h => ?_⟩
    simp only [Op.call, Option.some.injEq] at h
    subst h
    exact Send_Command_driverWrite s _ hb
  case Home =>
    refine ⟨hb, fun tr h => ?_⟩
    simp only [Op.call, Option.some.injEq] at h
    subst h
    exact Send_Command_driverWrite s _ hb
  case PrintChar character =>
    refine ⟨hb, fun tr h => ?_⟩
    simp only [Op.call, Option.some.injEq] at h
    subst h
    exact Send_Char_driverWrite s character hb
  case PrintCustomChar location =>
    refine ⟨hb, fun tr h => ?_⟩
    simp only [Op.call, Option.some.injEq] at h
    subst h
    exact Send_Register_Select_driverWrite s location hb

/-- A property of every write can be weakened. -/
theorem AllWrites_mono {P Q : Nat → Prop} {tr : List Event} (h : ∀ w, P w → Q w)
    (ha : AllWrites P tr) : AllWrites Q tr :=
  fun w hw => h w (ha w hw)

/-- Bit 0x08 of a byte of the driver's shape is the backlight mask. -/
theorem driverWrite_backlight {bl w : Nat} (hb : bl = NO_BACKLIGHT ∨ bl = BACKLIGHT)
    (h : driverWrite bl w) : w &&& BACKLIGHT = bl := by
  obtain ⟨b, hb2, rfl⟩ := backlight_cases hb
  obtain ⟨k, m, hk, hm, hw⟩ := h
  obtain ⟨-, -, -, -, -, a6, a7, -⟩ := nibble_arith k hk m hm b hb2
  rcases hw with rfl | rfl
  · exact a6
  · exact a7

/-- A call that does not switch the backlight off keeps it on. -/
theorem call_keeps_on (op : Op) (g : Statics) (s : LCD_I2C) (h : ¬ op.switchesOff)
    (hs : s.backlight = BACKLIGHT) : (op.call g s).1.2.backlight = BACKLIGHT := by
  cases op
  case BacklightOff => exact absurd trivial h
  case SetBacklight b =>
    cases b
    · exact absurd trivial h
    · rfl
  all_goals first | exact hs | rfl

/-- A call that does not switch the backlight on keeps it off. -/
theorem call_keeps_off (op : Op) (g : Statics) (s : LCD_I2C) (h : ¬ op.switchesOn)
    (hs : s.backlight = NO_BACKLIGHT) : (op.call g s).1.2.backlight = NO_BACKLIGHT := by
  cases op
  case BacklightOn => exact absurd trivial h
  case SetBacklight b =>
    cases b
    · rfl
    · exact absurd trivial h
  all_goals first | exact hs | rfl

/-- While every call keeps the backlight member at `v`, every byte written by
the run carries `v` in bit 0x08. -/
theorem run_backlight_const (v : Nat) (hv : v = NO_BACKLIGHT ∨ v = BACKLIGHT)
    (ops : List Op) :
    ∀ (g : Statics) (s : LCD_I2C), s.backlight = v →
      (∀ op, op ∈ ops → ∀ (g1 : Statics) (s1 : LCD_I2C), s1.backlight = v →
        (op.call g1 s1).1.2.backlight = v) →
      AllWrites (fun w => w &&& BACKLIGHT = v) (run g s ops).1 := by
  induction ops with
  | nil => intro g s _ _; exact AllWrites_nil _
  | cons op ops ih =>
    intro g s hs hkeep
    have hvalid : backlightValid s := by rw [backlightValid, hs]; exact hv
    have hpost := hkeep op (List.mem_cons_self _ _) g s hs
    have hcall := (call_driverWrite op g s hvalid).2
    rw [run]
    split
    · exact AllWrites_nil _
    · rename_i g2 s2 tr2 heq
      rw [heq] at hpost hcall
      refine AllWrites_append ?_ (ih g2 s2 hpost fun o ho => hkeep o (List.mem_cons_of_mem _ ho))
      have := hcall tr2 rfl
      rw [show s2.backlight = v from hpost] at this
      exact AllWrites_mono (fun w hw => driverWrite_backlight hv hw) this

/-- Every byte written by `Init` has the driver's shape. -/
theorem Init_driverWrite (s : LCD_I2C) (hb : backlightValid s) :
    AllWrites (driverWrite s.backlight) (s.Init).2 := by
  simp only [LCD_I2C.Init]
  refine AllWrites_append (AllWrites_append (AllWrites_append (AllWrites_append
    (AllWrites_append (AllWrites_append (AllWrites_append (AllWrites_append
      ?_ ?_) ?_) ?_) ?_) ?_) ?_) ?_) ?_
  all_goals
    exact Send_Command_driverWrite _ _ hb

/-- Every byte written by the constructor has the driver's shape with the
backlight off. -/
theorem ctor_driverWrite (address columns rows I2C SDA SCL : Nat) :
    AllWrites (driverWrite NO_BACKLIGHT)
      (LCD_I2C.ctor address columns rows I2C SDA SCL).2 := by
  simp only [LCD_I2C.ctor]
  refine AllWrites_append ?_ (Init_driverWrite _ (Or.inl rfl))
  intro w hw
  simp [busWrites] at hw

/-- C6. Bit 0x08 of every byte written to the bus is the backlight member at
the moment of the write: (1) every byte a public call writes carries in bit
0x08 the backlight member the object has after the call (only the backlight
calls change it, and they change it before they write); (2) after
`BacklightOn`, every byte written by `BacklightOn` and by any following
sequence of public calls without `BacklightOff` / `SetBacklight(false)` has
the bit set; (3) after `BacklightOff`, every byte written by it and by any
following sequence without `BacklightOn` / `SetBacklight(true)` has it clear;
(4) every byte the constructor writes has it clear. -/
theorem C6_backlight_bit_of_every_write :
    (∀ (op : Op) (g : Statics) (s : LCD_I2C) (tr : List Event),
        backlightValid s → (op.call g s).2 = some tr →
          AllWrites (fun w => w &&& BACKLIGHT = (op.call g s).1.2.backlight) tr)
    ∧ (∀ (g : Statics) (s : LCD_I2C) (ops : List Op),
        (∀ op, op ∈ ops → ¬ op.switchesOff) →
          AllWrites (fun w => w &&& BACKLIGHT = BACKLIGHT) (run g s (Op.BacklightOn :: ops)).1)
    ∧ (∀ (g : Statics) (s : LCD_I2C) (ops : List Op),
        (∀ op, op ∈ ops → ¬ op.switchesOn) →
          AllWrites (fun w => w &&& BACKLIGHT = NO_BACKLIGHT)
            (run g s (Op.BacklightOff :: ops)).1)
    ∧ (∀ address columns rows I2C SDA SCL : Nat,
        AllWrites (fun w => w &&& BACKLIGHT = NO_BACKLIGHT)
          (LCD_I2C.ctor address columns rows I2C SDA SCL).2) := by
  refine ⟨?_, ?_, ?_, ?_⟩
  · intro op g s tr hb htr
    obtain ⟨hv, hall⟩ := call_driverWrite op g s hb
    exact AllWrites_mono (fun w hw => driverWrite_backlight hv hw) (hall tr htr)
  · intro g s ops hops
    have h := run_backlight_const BACKLIGHT (Or.inr rfl) ops g (s.BacklightOn).1 rfl
      (fun op ho g1 s1 hs1 => call_keeps_on op g1 s1 (hops op ho) hs1)
    have h0 : AllWrites (fun w => w &&& BACKLIGHT = BACKLIGHT) (s.BacklightOn).2 := by
      intro w hw
      simp only [LCD_I2C.BacklightOn, LCD_I2C.I2C_Write_Byte, busWrites,
        List.mem_singleton] at hw
      subst hw
      decide
    exact AllWrites_append h0 h
  · intro g s ops hops
    have h := run_backlight_const NO_BACKLIGHT (Or.inl rfl) ops g (s.BacklightOff).1 rfl
      (fun op ho g1 s1 hs1 => call_keeps_off op g1 s1 (hops op ho) hs1)
    have h0 : AllWrites (fun w => w &&& BACKLIGHT = NO_BACKLIGHT) (s.BacklightOff).2 := by
      intro w hw
      simp only [LCD_I2C.BacklightOff, LCD_I2C.I2C_Write_Byte, busWrites,
        List.mem_singleton] at hw
      subst hw
      decide
    exact AllWrites_append h0 h
  · intro address columns rows I2C SDA SCL
    exact AllWrites_mono (fun w hw => driverWrite_backlight (Or.inl rfl) hw)
      (ctor_driverWrite address columns rows I2C SDA SCL)

/-- C6 on the 16x2 object: `BacklightOn`, `SetCursor(1, 0)`,
`PrintString("AB")`, `DisplayOff` write only bytes with bit 0x08 set. -/
theorem C6_witness :
    AllWrites (fun w => w &&& BACKLIGHT = BACKLIGHT)
      (run Statics.start lcd16x2
        [Op.BacklightOn, Op.SetCursor 1 0, Op.PrintString [0x41, 0x42], Op.DisplayOff]).1 :=
  C6_backlight_bit_of_every_write.2.1 Statics.start lcd16x2
    [Op.SetCursor 1 0, Op.PrintString [0x41, 0x42], Op.DisplayOff]
    (by
      intro op hop
      simp only [List.mem_cons, List.mem_singleton, List.not_mem_nil, or_false] at hop
      rcases hop with rfl | rfl | rfl <;> exact fun h => h)

/-- The object right after construction. -/
theorem ctor_state (address columns rows I2C SDA SCL : Nat) :
    (LCD_I2C.ctor address columns rows I2C SDA SCL).1 =
        { address := address, columns := columns, rows := rows, backlight := 0x00,
          display_function := 0x08, display_control := 0x04, display_mode := 0x02,
          I2C_instance := I2C } := by
  simp only [LCD_I2C.ctor, LCD_I2C.Init, LCD_I2C.DisplayOn]
  rfl

/-- The trace of the constructor: the SDK set-up calls, then nine commands. -/
theorem ctor_trace (address columns rows I2C SDA SCL : Nat) :
    (LCD_I2C.ctor address columns rows I2C SDA SCL).2 =
        [Event.i2c_init I2C 100000, Event.gpio_set_function_I2C SDA,
         Event.gpio_set_function_I2C SCL, Event.gpio_pull_up SDA, Event.gpio_pull_up SCL]
        ++ (LCD_I2C.ctor address columns rows I2C SDA SCL).1.Send_Command 0x03
        ++ (LCD_I2C.ctor address columns rows I2C SDA SCL).1.Send_Command 0x03
        ++ (LCD_I2C.ctor address columns rows I2C SDA SCL).1.Send_Command 0x03
        ++ (LCD_I2C.ctor address columns rows I2C SDA SCL).1.Send_Command 0x02
        ++ (LCD_I2C.ctor address columns rows I2C SDA SCL).1.Send_Command 0x06
        ++ (LCD_I2C.ctor address columns rows I2C SDA SCL).1.Send_Command 0x28
        ++ (LCD_I2C.ctor address columns rows I2C SDA SCL).1.Send_Command 0x0C
        ++ (LCD_I2C.ctor address columns rows I2C SDA SCL).1.Send_Command 0x01
        ++ (LCD_I2C.ctor address columns rows I2C SDA SCL).1.Send_Command 0x02 := by
  rw [ctor_state]
  simp only [LCD_I2C.ctor, LCD_I2C.Init, LCD_I2C.DisplayOn, LCD_I2C.Clear, LCD_I2C.Home,
    LCD_I2C.Send_Command, LCD_I2C.Send_Byte, LCD_I2C.Send_Nibble, LCD_I2C.Pulse_Enable,
    LCD_I2C.I2C_Write_Byte]
  rfl

/-- C7. For every address, columns and rows, the object after construction has
display_mode = ENTRY_LEFT = 0x02, display_function = 4-bit | 2-line | 5x8 =
0x08, display_control = display-on, cursor-off, blink-off = 0x04 and
backlight = 0x00; the trace of the constructor is the SDK set-up calls followed
by exactly the commands 0x03, 0x03, 0x03, 0x02, 0x06, 0x28, 0x0C, 0x01, 0x02 in
this order with nothing in between, and its bus writes are the 54 bytes
listed. -/
theorem C7_constructor_defaults_and_sequence (address columns rows I2C SDA SCL : Nat) :
    (LCD_I2C.ctor address columns rows I2C SDA SCL).1 =
        { address := address, columns := columns, rows := rows, backlight := 0x00,
          display_function := 0x08, display_control := 0x04, display_mode := 0x02,
          I2C_instance := I2C }
    ∧ ENTRY_LEFT = 0x02 ∧ MODE_4_BIT ||| LINE_2 ||| DOTS_5x8 = 0x08
    ∧ DISPLAY_ON ||| CURSOR_OFF ||| BLINK_OFF = 0x04 ∧ NO_BACKLIGHT = 0x00
    ∧ ENTRY_MODE_SET ||| 0x02 = 0x06 ∧ FUNCTION_SET ||| 0x08 = 0x28
    ∧ DISPLAY_CONTROL ||| 0x04 = 0x0C ∧ CLEAR_DISPLAY = 0x01 ∧ RETURN_HOME = 0x02
    ∧ (LCD_I2C.ctor address columns rows I2C SDA SCL).2 =
        [Event.i2c_init I2C 100000, Event.gpio_set_function_I2C SDA,
         Event.gpio_set_function_I2C SCL, Event.gpio_pull_up SDA, Event.gpio_pull_up SCL]
        ++ (LCD_I2C.ctor address columns rows I2C SDA SCL).1.Send_Command 0x03
        ++ (LCD_I2C.ctor address columns rows I2C SDA SCL).1.Send_Command 0x03
        ++ (LCD_I2C.ctor address columns rows I2C SDA SCL).1.Send_Command 0x03
        ++ (LCD_I2C.ctor address columns rows I2C SDA SCL).1.Send_Command 0x02
        ++ (LCD_I2C.ctor address columns rows I2C SDA SCL).1.Send_Command 0x06
        ++ (LCD_I2C.ctor address columns rows I2C SDA SCL).1.Send_Command 0x28
        ++ (LCD_I2C.ctor address columns rows I2C SDA SCL).1.Send_Command 0x0C
        ++ (LCD_I2C.ctor address columns rows I2C SDA SCL).1.Send_Command 0x01
        ++ (LCD_I2C.ctor address columns rows I2C SDA SCL).1.Send_Command 0x02
    ∧ busWrites (LCD_I2C.ctor address columns rows I2C SDA SCL).2 =
        [0x00, 0x04, 0x00, 0x30, 0x34, 0x30,
         0x00, 0x04, 0x00, 0x30, 0x34, 0x30,
         0x00, 0x04, 0x00, 0x30, 0x34, 0x30,
         0x00, 0x04, 0x00, 0x20, 0x24, 0x20,
         0x00, 0x04, 0x00, 0x60, 0x64, 0x60,
         0x20, 0x24, 0x20, 0x80, 0x84, 0x80,
         0x00, 0x04, 0x00, 0xC0, 0xC4, 0xC0,
         0x00, 0x04, 0x00, 0x10, 0x14, 0x10,
         0x00, 0x04, 0x00, 0x20, 0x24, 0x20] := by
  refine ⟨ctor_state _ _ _ _ _ _, rfl, rfl, rfl, rfl, rfl, rfl, rfl, rfl, rfl,
    ctor_trace _ _ _ _ _ _, ?_⟩
  rw [ctor_trace]
  simp only [busWrites_append, LCD_I2C.Send_Command, busWrites_Send_Byte, ctor_state]
  rfl

/-- The number of enable pulses is additive over concatenation. -/
theorem enablePulses_length_append (a b : List Nat) :
    (enablePulses (a ++ b)).length = (enablePulses a).length + (enablePulses b).length := by
  induction a with
  | nil => simp [enablePulses]
  | cons w a ih =>
    simp only [List.cons_append, enablePulses]
    split <;> simp [ih]; omega

/-- The pulse count of a concatenation. -/
theorem pulseCount_append (a b : List Event) :
    pulseCount (a ++ b) = pulseCount a + pulseCount b := by
  simp only [pulseCount, busWrites_append, enablePulses_length_append]

/-- C8, as stated, fails on the 16x2 object: the trace of the constructor is not
the set-up calls, four segments of one enable pulse each, and then the byte
cycles of 0x06, 0x28, 0x0C, 0x01, 0x02; the first twelve events after the
set-up are `Send_Byte(0x03, COMMAND)`, with two enable pulses, nibble 0x00 then
nibble 0x30. -/
theorem C8_handshake_is_not_single_nibbles :
    (¬ ∃ n1 n2 n3 n4 : List Event,
        pulseCount n1 = 1 ∧ pulseCount n2 = 1 ∧ pulseCount n3 = 1 ∧ pulseCount n4 = 1 ∧
        (LCD_I2C.ctor 0x27 16 2 0 4 5).2 =
          [Event.i2c_init 0 100000, Event.gpio_set_function_I2C 4,
           Event.gpio_set_function_I2C 5, Event.gpio_pull_up 4, Event.gpio_pull_up 5]
          ++ n1 ++ n2 ++ n3 ++ n4
          ++ lcd16x2.Send_Command 0x06 ++ lcd16x2.Send_Command 0x28
          ++ lcd16x2.Send_Command 0x0C ++ lcd16x2.Send_Command 0x01
          ++ lcd16x2.Send_Command 0x02)
    ∧ ((LCD_I2C.ctor 0x27 16 2 0 4 5).2.drop 5).take 12 = lcd16x2.Send_Byte 0x03 COMMAND
    ∧ enablePulses (busWrites (lcd16x2.Send_Byte 0x03 COMMAND))
        = [(0x04, some 0x00), (0x34, some 0x30)] := by
  refine ⟨?_, by decide, by decide⟩
  rintro ⟨n1, n2, n3, n4, h1, h2, h3, h4, h⟩
  have hc := congrArg pulseCount h
  simp only [pulseCount_append, h1, h2, h3, h4] at hc
  revert hc
  decide

/-- C8, amended. Each of the four handshake values 0x03, 0x03, 0x03, 0x02 is
transmitted by `Send_Command` as a full two-nibble byte cycle, like the five
commands after them: two enable pulses each, the high nibble 0x00 first and
then the low nibble 0x30 (0x20 for the value 0x02); the constructor produces 18
enable pulses in all. -/
theorem C8_handshake_uses_byte_codec (address columns rows I2C SDA SCL : Nat) :
    (LCD_I2C.ctor address columns rows I2C SDA SCL).2 =
        [Event.i2c_init I2C 100000, Event.gpio_set_function_I2C SDA,
         Event.gpio_set_function_I2C SCL, Event.gpio_pull_up SDA, Event.gpio_pull_up SCL]
        ++ (LCD_I2C.ctor address columns rows I2C SDA SCL).1.Send_Byte 0x03 COMMAND
        ++ (LCD_I2C.ctor address columns rows I2C SDA SCL).1.Send_Byte 0x03 COMMAND
        ++ (LCD_I2C.ctor address columns rows I2C SDA SCL).1.Send_Byte 0x03 COMMAND
        ++ (LCD_I2C.ctor address columns rows I2C SDA SCL).1.Send_Byte 0x02 COMMAND
        ++ (LCD_I2C.ctor address columns rows I2C SDA SCL).1.Send_Byte 0x06 COMMAND
        ++ (LCD_I2C.ctor address columns rows I2C SDA SCL).1.Send_Byte 0x28 COMMAND
        ++ (LCD_I2C.ctor address columns rows I2C SDA SCL).1.Send_Byte 0x0C COMMAND
        ++ (LCD_I2C.ctor address columns rows I2C SDA SCL).1.Send_Byte 0x01 COMMAND
        ++ (LCD_I2C.ctor address columns rows I2C SDA SCL).1.Send_Byte 0x02 COMMAND
    ∧ enablePulses (busWrites
        ((LCD_I2C.ctor address columns rows I2C SDA SCL).1.Send_Byte 0x03 COMMAND))
        = [(0x04, some 0x00), (0x34, some 0x30)]
    ∧ enablePulses (busWrites
        ((LCD_I2C.ctor address columns rows I2C SDA SCL).1.Send_Byte 0x02 COMMAND))
        = [(0x04, some 0x00), (0x24, some 0x20)]
    ∧ pulseCount (LCD_I2C.ctor address columns rows I2C SDA SCL).2 = 18 := by
  have hpc : ∀ v, pulseCount
      ((LCD_I2C.ctor address columns rows I2C SDA SCL).1.Send_Command v) = 2 := by
    intro v
    have h := (enablePulses_Send_Byte (LCD_I2C.ctor address columns rows I2C SDA SCL).1 v
      COMMAND (by decide) (by rw [ctor_state]; exact Or.inl rfl)).1
    rw [pulseCount, LCD_I2C.Send_Command, h]
    rfl
  refine ⟨ctor_trace _ _ _ _ _ _, ?_, ?_, ?_⟩
  · rw [busWrites_Send_Byte]; simp only [ctor_state]; decide
  · rw [busWrites_Send_Byte]; simp only [ctor_state]; decide
  · rw [ctor_trace]
    simp only [pulseCount_append, hpc]
    rfl

/-- `PrintString` of a concatenation. -/
theorem PrintString_append (s : LCD_I2C) (str t : List Nat) :
    s.PrintString (str ++ t) = s.PrintString str ++ s.PrintString t := by
  induction str with
  | nil => rfl
  | cons c str ih =>
    show s.PrintChar (toByte c) ++ s.PrintString (str ++ t)
      = (s.PrintChar (toByte c) ++ s.PrintString str) ++ s.PrintString t
    rw [ih, List.append_assoc]

/-- `PrintString` is `PrintChar` on every character, in order. -/
theorem PrintString_flatMap (s : LCD_I2C) (str : List Nat) :
    s.PrintString str = str.flatMap fun c => s.PrintChar (toByte c) := by
  induction str with
  | nil => rfl
  | cons c str ih => simp only [LCD_I2C.PrintString, ih, List.flatMap_cons]

/-- C9. For every string, `PrintString(s)` produces exactly the trace obtained
by calling `PrintChar` on each character of `s` in order; the empty string
emits nothing; `PrintString(s ++ t)` is `PrintString(s)` followed by
`PrintString(t)`; `PrintString("AB")` emits the same events, hence the same
bus bytes, as `PrintChar('A')` followed by `PrintChar('B')`. -/
theorem C9_PrintString_is_PrintChar_sequence (s : LCD_I2C) (str t : List Nat) :
    (s.PrintString str = str.flatMap fun c => s.PrintChar (toByte c))
    ∧ s.PrintString [] = []
    ∧ s.PrintString (str ++ t) = s.PrintString str ++ s.PrintString t
    ∧ s.PrintString [0x41, 0x42] = s.PrintChar 0x41 ++ s.PrintChar 0x42
    ∧ busWrites (s.PrintString [0x41, 0x42])
        = busWrites (s.PrintChar 0x41) ++ busWrites (s.PrintChar 0x42) := by
  refine ⟨PrintString_flatMap s str, rfl, PrintString_append s str t, ?_, ?_⟩
  · simp [LCD_I2C.PrintString, toByte]
  · rw [← busWrites_append]
    simp [LCD_I2C.PrintString, toByte]

set_option maxRecDepth 100000 in
/-- Byte arithmetic of setting and clearing bit `i` of a flag byte. -/
theorem flag_arith : ∀ x, x < 256 → ∀ i, i < 3 →
    toByte (x ||| 2 ^ i) &&& bitNot (2 ^ i) = x &&& bitNot (2 ^ i)
    ∧ toByte (x ||| 2 ^ i) &&& 2 ^ i = 2 ^ i
    ∧ toByte (x &&& bitNot (2 ^ i)) &&& bitNot (2 ^ i) = x &&& bitNot (2 ^ i)
    ∧ toByte (x &&& bitNot (2 ^ i)) &&& 2 ^ i = 0
    ∧ toByte (toByte (x &&& bitNot (2 ^ i)) ||| 2 ^ i) = x ||| 2 ^ i := by
  decide

/-- Setting bit `i` of a flag byte changes no other bit. -/
theorem set_bit_frame (x i : Nat) (hx : x < 256) (hi : i < 3) :
    onlyBit (2 ^ i) x (toByte (x ||| 2 ^ i)) (2 ^ i) :=
  ⟨(flag_arith x hx i hi).1, (flag_arith x hx i hi).2.1⟩

/-- Clearing bit `i` of a flag byte changes no other bit. -/
theorem clear_bit_frame (x i : Nat) (hx : x < 256) (hi : i < 3) :
    onlyBit (2 ^ i) x (toByte (x &&& bitNot (2 ^ i))) 0 :=
  ⟨(flag_arith x hx i hi).2.2.1, (flag_arith x hx i hi).2.2.2.1⟩

set_option maxRecDepth 100000 in
/-- Setting the display-on bit leaves the cursor and blink bits. -/
theorem or_display_on_arith : ∀ x, x < 256 →
    (x ||| DISPLAY_ON) &&& DISPLAY_ON = DISPLAY_ON
    ∧ (x ||| DISPLAY_ON) &&& CURSOR_ON = x &&& CURSOR_ON
    ∧ (x ||| DISPLAY_ON) &&& BLINK_ON = x &&& BLINK_ON := by
  decide

/-- C10. For every byte value of display_control, `DisplayOff` followed by
`DisplayOn` leaves the display-on bit (0x04) set and the cursor (0x02) and
blink (0x01) bits as they were, all other members unchanged; each of
`DisplayOn/Off`, `CursorOn/Off`, `CursorBlinkOn/Off` changes only the member
display_control and in it only its own bit, and
`SetTextLeftToRight/RightToLeft` change only the member display_mode and in
it only the ENTRY_LEFT bit. -/
theorem C10_flag_operations_frame (s : LCD_I2C)
    (hc : s.display_control < 256) (hm : s.display_mode < 256) :
    ((s.DisplayOff).1.DisplayOn).1 =
        { s with display_control := s.display_control ||| DISPLAY_ON }
    ∧ ((s.DisplayOff).1.DisplayOn).1.display_control &&& DISPLAY_ON = DISPLAY_ON
    ∧ ((s.DisplayOff).1.DisplayOn).1.display_control &&& CURSOR_ON
        = s.display_control &&& CURSOR_ON
    ∧ ((s.DisplayOff).1.DisplayOn).1.display_control &&& BLINK_ON
        = s.display_control &&& BLINK_ON
    ∧ ((s.DisplayOn).1 = { s with display_control := (s.DisplayOn).1.display_control }
        ∧ onlyBit DISPLAY_ON s.display_control (s.DisplayOn).1.display_control DISPLAY_ON)
    ∧ ((s.DisplayOff).1 = { s with display_control := (s.DisplayOff).1.display_control }
        ∧ onlyBit DISPLAY_ON s.display_control (s.DisplayOff).1.display_control 0)
    ∧ ((s.CursorOn).1 = { s with display_control := (s.CursorOn).1.display_control }
        ∧ onlyBit CURSOR_ON s.display_control (s.CursorOn).1.display_control CURSOR_ON)
    ∧ ((s.CursorOff).1 = { s with display_control := (s.CursorOff).1.display_control }
        ∧ onlyBit CURSOR_ON s.display_control (s.CursorOff).1.display_control 0)
    ∧ ((s.CursorBlinkOn).1 = { s with display_control := (s.CursorBlinkOn).1.display_control }
        ∧ onlyBit BLINK_ON s.display_control (s.CursorBlinkOn).1.display_control BLINK_ON)
    ∧ ((s.CursorBlinkOff).1 = { s with display_control := (s.CursorBlinkOff).1.display_control }
        ∧ onlyBit BLINK_ON s.display_control (s.CursorBlinkOff).1.display_control 0)
    ∧ ((s.SetTextLeftToRight).1 =
          { s with display_mode := (s.SetTextLeftToRight).1.display_mode }
        ∧ onlyBit ENTRY_LEFT s.display_mode (s.SetTextLeftToRight).1.display_mode ENTRY_LEFT)
    ∧ ((s.SetTextRightToLeft).1 =
          { s with display_mode := (s.SetTextRightToLeft).1.display_mode }
        ∧ onlyBit ENTRY_LEFT s.display_mode (s.SetTextRightToLeft).1.display_mode 0) := by
  have hoo : ((s.DisplayOff).1.DisplayOn).1.display_control
      = s.display_control ||| DISPLAY_ON := (flag_arith _ hc 2 (by decide)).2.2.2.2
  have hor := or_display_on_arith _ hc
  refine ⟨?_, ?_, ?_, ?_, ⟨rfl, set_bit_frame _ 2 hc (by decide)⟩,
    ⟨rfl, clear_bit_frame _ 2 hc (by decide)⟩,
    ⟨rfl, set_bit_frame _ 1 hc (by decide)⟩, ⟨rfl, clear_bit_frame _ 1 hc (by decide)⟩,
    ⟨rfl, set_bit_frame _ 0 hc (by decide)⟩, ⟨rfl, clear_bit_frame _ 0 hc (by decide)⟩,
    ⟨rfl, set_bit_frame _ 1 hm (by decide)⟩, ⟨rfl, clear_bit_frame _ 1 hm (by decide)⟩⟩
  · show ({ s with display_control := ((s.DisplayOff).1.DisplayOn).1.display_control }
      : LCD_I2C) = _
    rw [hoo]
  · rw [hoo]; exact hor.1
  · rw [hoo]; exact hor.2.1
  · rw [hoo]; exact hor.2.2

/-- C10 on the 16x2 object with display, cursor and blink all on: `DisplayOff`
then `DisplayOn` gives the object back. -/
theorem C10_flag_operations_frame_witness :
    ((7 : Nat) < 256 ∧ (2 : Nat) < 256)
    ∧ ((({ lcd16x2 with display_control := 0x07 } : LCD_I2C).DisplayOff).1.DisplayOn).1
        = { lcd16x2 with display_control := 0x07 } :=
  ⟨by decide,
    (C10_flag_operations_frame { lcd16x2 with display_control := 0x07 }
      (by decide) (by decide)).1⟩

/-! ## C11, C18: the enable pulse and the writes of a nibble -/

set_option maxRecDepth 100000 in
/-- Byte arithmetic of `Send_Nibble` for a byte `x` and a backlight mask
`8 * b`: the conversions to `byte` change nothing. -/
theorem pulse_arith : ∀ x, x < 256 → ∀ b, b < 2 →
    toByte (x ||| 8 * b) = x ||| 8 * b
    ∧ toByte (toByte (x ||| ENABLE) ||| 8 * b) = (x ||| ENABLE) ||| 8 * b
    ∧ toByte (toByte (x &&& bitNot ENABLE) ||| 8 * b) = (x &&& bitNot ENABLE) ||| 8 * b := by
  decide

/-- C11. For every byte `val` and both backlight states, `Pulse_Enable(val)`
produces exactly five events: delay 600 us; one bus write of
`(val | ENABLE) | backlight`; delay 600 us; one bus write of
`(val & ~ENABLE) | backlight`; delay 600 us. -/
theorem C11_Pulse_Enable_sequence (s : LCD_I2C) (val : Nat) (hv : val < 256)
    (hb : s.backlight = NO_BACKLIGHT ∨ s.backlight = BACKLIGHT) :
    s.Pulse_Enable val =
      [Event.sleep_us 600,
       Event.i2c_write_blocking s.I2C_instance s.address ((val ||| ENABLE) ||| s.backlight),
       Event.sleep_us 600,
       Event.i2c_write_blocking s.I2C_instance s.address
         ((val &&& bitNot ENABLE) ||| s.backlight),
       Event.sleep_us 600] := by
  obtain ⟨b, hb2, hbl⟩ := backlight_cases hb
  obtain ⟨-, a2, a3⟩ := pulse_arith val hv b hb2
  simp only [LCD_I2C.Pulse_Enable, LCD_I2C.I2C_Write_Byte, LCD_I2C.DELAY, hbl, a2, a3]
  rfl

/-- C11 on the 16x2 object with the backlight on, for the value 0xA1: the two
writes are 0xAD and 0xA9. -/
theorem C11_Pulse_Enable_sequence_witness :
    ({ lcd16x2 with backlight := BACKLIGHT } : LCD_I2C).Pulse_Enable 0xA1 =
      [Event.sleep_us 600, Event.i2c_write_blocking 0 0x27 0xAD, Event.sleep_us 600,
       Event.i2c_write_blocking 0 0x27 0xA9, Event.sleep_us 600] :=
  C11_Pulse_Enable_sequence { lcd16x2 with backlight := BACKLIGHT } 0xA1
    (by decide) (by decide)

/-- C18. For every byte `val` and both backlight states, `Send_Nibble(val)`
writes exactly three bytes, `val | backlight`, `val | ENABLE | backlight`,
`(val & ~ENABLE) | backlight`, in this order; and for every byte `v` and mode
among COMMAND, CHAR, REGISTER_SELECT, `Send_Byte(v, mode)` writes exactly six
bytes `H, H | 0x04, H, L, L | 0x04, L`, each merged with the backlight mask,
where `H = (v & 0xF0) | mode` and `L = ((v << 4) & 0xF0) | mode`. -/
theorem C18_Send_Nibble_three_writes (s : LCD_I2C) (val v mode : Nat) (hval : val < 256)
    (hm : mode = COMMAND ∨ mode = CHAR ∨ mode = REGISTER_SELECT)
    (hb : s.backlight = NO_BACKLIGHT ∨ s.backlight = BACKLIGHT) :
    busWrites (s.Send_Nibble val) =
      [val ||| s.backlight, (val ||| ENABLE) ||| s.backlight,
       (val &&& bitNot ENABLE) ||| s.backlight]
    ∧ busWrites (s.Send_Byte v mode) =
      [((v &&& 0xF0) ||| mode) ||| s.backlight,
       (((v &&& 0xF0) ||| mode) ||| 0x04) ||| s.backlight,
       ((v &&& 0xF0) ||| mode) ||| s.backlight,
       (((v <<< 4) &&& 0xF0) ||| mode) ||| s.backlight,
       ((((v <<< 4) &&& 0xF0) ||| mode) ||| 0x04) ||| s.backlight,
       (((v <<< 4) &&& 0xF0) ||| mode) ||| s.backlight] := by
  obtain ⟨b, hb2, hbl⟩ := backlight_cases hb
  constructor
  · obtain ⟨a1, a2, a3⟩ := pulse_arith val hval b hb2
    simp only [LCD_I2C.Send_Nibble, LCD_I2C.Pulse_Enable, LCD_I2C.I2C_Write_Byte, hbl,
      a1, a2, a3]
    rfl
  · obtain ⟨k, hk, hH⟩ := and_F0_nibble v
    obtain ⟨j, hj, hL⟩ := and_F0_nibble (v <<< 4)
    have hm2 := mode_cases hm
    have e1 : ∀ i, i < 16 → ∀ m, m < 2 → ∀ c, c < 2 →
        ((16 * i ||| m) ||| 4) ||| 8 * c = ((16 * i ||| m) ||| 8 * c) ||| ENABLE := by
      decide
    obtain ⟨a1, a2, a3, -⟩ := nibble_arith k hk mode hm2 b hb2
    obtain ⟨b1, b2, b3, -⟩ := nibble_arith j hj mode hm2 b hb2
    rw [busWrites_Send_Byte, hH, hL, hbl, a1, a2, a3, b1, b2, b3,
      e1 k hk mode hm2 b hb2, e1 j hj mode hm2 b hb2]

/-- C18 on the 16x2 object (backlight off): `Send_Nibble(0xA5)` writes 0xA5,
0xA5, 0xA1, and `Send_Byte(0xAB, CHAR)` writes 0xA1, 0xA5, 0xA1, 0xB1, 0xB5,
0xB1. -/
theorem C18_Send_Nibble_three_writes_witness :
    busWrites (lcd16x2.Send_Nibble 0xA5) = [0xA5, 0xA5, 0xA1]
    ∧ busWrites (lcd16x2.Send_Byte 0xAB CHAR) = [0xA1, 0xA5, 0xA1, 0xB1, 0xB5, 0xB1] :=
  C18_Send_Nibble_three_writes lcd16x2 0xA5 0xAB CHAR (by decide) (by decide) (by decide)

/-! ## C17: the custom-glyph path is the character path -/

/-- C17. For every value `n` and every object, `PrintCustomChar(n)` produces
exactly the trace of `PrintChar(n)`: REGISTER_SELECT and CHAR are the same mode
bit 0x01, so `Send_Register_Select` and `Send_Char` are the same call of
`Send_Byte`. -/
theorem C17_PrintCustomChar_is_PrintChar (s : LCD_I2C) (n : Nat) :
    s.PrintCustomChar n = s.PrintChar n
    ∧ REGISTER_SELECT = CHAR ∧ CHAR = 0x01
    ∧ s.Send_Register_Select n = s.Send_Char n
    ∧ busWrites (s.PrintCustomChar n) = busWrites (s.PrintChar n) :=
  ⟨rfl, rfl, rfl, rfl, rfl⟩

/-! ## C12: `CreateCustomChar` for a valid slot -/

/-- The loop of `CreateCustomChar` sends the eight rows of the pattern in index
order through `Send_Register_Select`. -/
theorem CreateCustomChar_loop_eight (s : LCD_I2C) (char_map : LCD_I2C.array) :
    LCD_I2C.CreateCustomChar_loop s char_map 0 CUSTOM_SYMBOL_SIZE =
      s.Send_Register_Select (char_map 0) ++ (s.Send_Register_Select (char_map 1)
        ++ (s.Send_Register_Select (char_map 2) ++ (s.Send_Register_Select (char_map 3)
        ++ (s.Send_Register_Select (char_map 4) ++ (s.Send_Register_Select (char_map 5)
        ++ (s.Send_Register_Select (char_map 6) ++ (s.Send_Register_Select (char_map 7)
        ++ []))))))) := by
  simp only [CUSTOM_SYMBOL_SIZE, LCD_I2C.CreateCustomChar_loop]
  rfl

/-- C12. For every slot below 8 and every pattern, `CreateCustomChar(slot,
pattern)` transmits the command `SET_CGRAM_ADDR | (slot << 3)` followed by
exactly eight data bytes `pattern[0]`, ..., `pattern[7]` in index order, each
sent by `Send_Byte` with mode REGISTER_SELECT; the call leaves the object and
the statics unchanged. -/
theorem C12_CreateCustomChar_valid_slot (g : Statics) (s : LCD_I2C) (slot : Nat)
    (char_map : LCD_I2C.array) (h : slot < 8) :
    s.CreateCustomChar slot char_map =
      s.Send_Command (SET_CGRAM_ADDR ||| (slot <<< 3))
        ++ (s.Send_Byte (char_map 0) REGISTER_SELECT
        ++ (s.Send_Byte (char_map 1) REGISTER_SELECT
        ++ (s.Send_Byte (char_map 2) REGISTER_SELECT
        ++ (s.Send_Byte (char_map 3) REGISTER_SELECT
        ++ (s.Send_Byte (char_map 4) REGISTER_SELECT
        ++ (s.Send_Byte (char_map 5) REGISTER_SELECT
        ++ (s.Send_Byte (char_map 6) REGISTER_SELECT
        ++ (s.Send_Byte (char_map 7) REGISTER_SELECT ++ []))))))))
    ∧ SET_CGRAM_ADDR = 0x40
    ∧ ((Op.CreateCustomChar slot char_map).call g s).1 = (g, s)
    ∧ ((Op.CreateCustomChar slot char_map).call g s).2
        = some (s.CreateCustomChar slot char_map) := by
  refine ⟨?_, rfl, rfl, rfl⟩
  have hmin : min LCD_I2C.MAX_CUSTOM_CHARS slot = slot :=
    Nat.min_eq_right (Nat.le_of_lt h)
  have hcmd : toByte (SET_CGRAM_ADDR ||| (slot <<< 3)) = SET_CGRAM_ADDR ||| (slot <<< 3) := by
    interval_cases slot <;> rfl
  simp only [LCD_I2C.CreateCustomChar, hmin, hcmd, CreateCustomChar_loop_eight]
  rfl

/-- C12 on the 16x2 example: `CreateCustomChar(0, HEART)` sends command 0x40 and
then the eight rows of `HEART`. -/
theorem C12_CreateCustomChar_valid_slot_witness :
    lcd16x2.CreateCustomChar 0 HEART =
      lcd16x2.Send_Command 0x40
        ++ (lcd16x2.Send_Byte 0x00 REGISTER_SELECT
        ++ (lcd16x2.Send_Byte 0x0A REGISTER_SELECT
        ++ (lcd16x2.Send_Byte 0x1F REGISTER_SELECT
        ++ (lcd16x2.Send_Byte 0x1F REGISTER_SELECT
        ++ (lcd16x2.Send_Byte 0x1F REGISTER_SELECT
        ++ (lcd16x2.Send_Byte 0x0E REGISTER_SELECT
        ++ (lcd16x2.Send_Byte 0x04 REGISTER_SELECT
        ++ (lcd16x2.Send_Byte 0x00 REGISTER_SELECT ++ [])))))))) :=
  (C12_CreateCustomChar_valid_slot Statics.start lcd16x2 0 HEART (by decide)).1

/-! ## C16: what the public operations leave unchanged -/

/-- A public call keeps address, geometry, function flags and bus handle. -/
theorem call_fixed_members (op : Op) (g : Statics) (s : LCD_I2C) :
    (op.call g s).1.2.address = s.address
    ∧ (op.call g s).1.2.columns = s.columns
    ∧ (op.call g s).1.2.rows = s.rows
    ∧ (op.call g s).1.2.display_function = s.display_function
    ∧ (op.call g s).1.2.I2C_instance = s.I2C_instance := by
  cases op
  case SetBacklight b => cases b <;> exact ⟨rfl, rfl, rfl, rfl, rfl⟩
  all_goals exact ⟨rfl, rfl, rfl, rfl, rfl⟩

/-- A sequence of public calls keeps address, geometry, function flags and bus
handle. -/
theorem run_fixed_members (ops : List Op) :
    ∀ (g : Statics) (s : LCD_I2C) (g1 : Statics) (s1 : LCD_I2C),
      (run g s ops).2 = some (g1, s1) →
        s1.address = s.address ∧ s1.columns = s.columns ∧ s1.rows = s.rows
        ∧ s1.display_function = s.display_function
        ∧ s1.I2C_instance = s.I2C_instance := by
  induction ops with
  | nil =>
    intro g s g1 s1 hrun
    simp only [run, Option.some.injEq, Prod.mk.injEq] at hrun
    obtain ⟨-, rfl⟩ := hrun
    exact ⟨rfl, rfl, rfl, rfl, rfl⟩
  | cons op ops ih =>
    intro g s g1 s1 hrun
    have hstep := call_fixed_members op g s
    rw [run] at hrun
    split at hrun
    · simp at hrun
    · rename_i g2 s2 tr2 heq
      rw [heq] at hstep
      obtain ⟨h1, h2, h3, h4, h5⟩ := ih g2 s2 g1 s1 hrun
      obtain ⟨k1, k2, k3, k4, k5⟩ := hstep
      exact ⟨h1.trans k1, h2.trans k2, h3.trans k3, h4.trans k4, h5.trans k5⟩

/-- C16. After construction no public operation, and no sequence of them,
changes address, columns, rows or display_function (they keep the values given
to the constructor, display_function being 0x08); `Clear`, `Home`, `SetCursor`,
`PrintChar`, `PrintString`, `PrintCustomChar` and `CreateCustomChar` leave the
whole object unchanged; `BacklightOn`, `BacklightOff` and `SetBacklight` change
only the backlight member. -/
theorem C16_frame_of_public_operations :
    (∀ (address columns rows I2C SDA SCL : Nat) (ops : List Op) (g : Statics)
        (s : LCD_I2C),
        (run Statics.start (LCD_I2C.ctor address columns rows I2C SDA SCL).1 ops).2
            = some (g, s) →
          s.address = address ∧ s.columns = columns ∧ s.rows = rows
          ∧ s.display_function = 0x08)
    ∧ (∀ (op : Op) (g : Statics) (s : LCD_I2C),
        (op.call g s).1.2.address = s.address ∧ (op.call g s).1.2.columns = s.columns
        ∧ (op.call g s).1.2.rows = s.rows
        ∧ (op.call g s).1.2.display_function = s.display_function)
    ∧ (∀ (g : Statics) (s : LCD_I2C) (row column character location : Nat)
        (str : List Nat) (char_map : LCD_I2C.array),
        (Op.Clear.call g s).1.2 = s ∧ (Op.Home.call g s).1.2 = s
        ∧ ((Op.SetCursor row column).call g s).1.2 = s
        ∧ ((Op.PrintChar character).call g s).1.2 = s
        ∧ ((Op.PrintString str).call g s).1.2 = s
        ∧ ((Op.PrintCustomChar location).call g s).1.2 = s
        ∧ ((Op.CreateCustomChar location char_map).call g s).1.2 = s)
    ∧ (∀ (g : Statics) (s : LCD_I2C) (light_on : Bool),
        (Op.BacklightOn.call g s).1.2 = { s with backlight := BACKLIGHT }
        ∧ (Op.BacklightOff.call g s).1.2 = { s with backlight := NO_BACKLIGHT }
        ∧ ((Op.SetBacklight light_on).call g s).1.2
            = { s with backlight := if light_on then BACKLIGHT else NO_BACKLIGHT }) := by
  refine ⟨?_, ?_, ?_, ?_⟩
  · intro address columns rows I2C SDA SCL ops g s hrun
    obtain ⟨h1, h2, h3, h4, -⟩ := run_fixed_members ops _ _ g s hrun
    rw [ctor_state] at h1 h2 h3 h4
    exact ⟨h1, h2, h3, h4⟩
  · intro op g s
    obtain ⟨h1, h2, h3, h4, -⟩ := call_fixed_members op g s
    exact ⟨h1, h2, h3, h4⟩
  · intro g s row column character location str char_map
    exact ⟨rfl, rfl, rfl, rfl, rfl, rfl, rfl⟩
  · intro g s light_on
    refine ⟨rfl, rfl, ?_⟩
    cases light_on <;> rfl

/-- C16 on the 16x2 example: after the first calls of its `main` the members
fixed at construction are 0x27, 16, 2 and 0x08. -/
theorem C16_frame_of_public_operations_witness :
    ({ lcd16x2 with backlight := BACKLIGHT } : LCD_I2C).address = 0x27
    ∧ ({ lcd16x2 with backlight := BACKLIGHT } : LCD_I2C).columns = 16
    ∧ ({ lcd16x2 with backlight := BACKLIGHT } : LCD_I2C).rows = 2
    ∧ ({ lcd16x2 with backlight := BACKLIGHT } : LCD_I2C).display_function = 0x08 :=
  C16_frame_of_public_operations.1 0x27 16 2 0 4 5 main16x2_ops
    { ROW_OFFSETS := some [0x00, 0x40, 16, 0x50] }
    { lcd16x2 with backlight := BACKLIGHT } (by decide)

/-! ## C19: the READ_WRITE bit is never set -/

/-- Bit 0x02 of a byte of the driver's shape is clear. -/
theorem driverWrite_read_write {bl w : Nat} (hb : bl = NO_BACKLIGHT ∨ bl = BACKLIGHT)
    (h : driverWrite bl w) : w &&& READ_WRITE = 0 := by
  obtain ⟨b, hb2, rfl⟩ := backlight_cases hb
  obtain ⟨k, m, hk, hm, hw⟩ := h
  obtain ⟨-, -, -, -, -, -, -, a8, a9⟩ := nibble_arith k hk m hm b hb2
  rcases hw with rfl | rfl
  · exact a8
  · exact a9

/-- Every byte written by a sequence of public calls, begun with a valid
backlight member, has the READ_WRITE bit clear. -/
theorem run_read_write (ops : List Op) :
    ∀ (g : Statics) (s : LCD_I2C), backlightValid s →
      AllWrites (fun w => w &&& READ_WRITE = 0) (run g s ops).1 := by
  induction ops with
  | nil => intro g s _; exact AllWrites_nil _
  | cons op ops ih =>
    intro g s hb
    obtain ⟨hpost, hcall⟩ := call_driverWrite op g s hb
    rw [run]
    split
    · exact AllWrites_nil _
    · rename_i g2 s2 tr2 heq
      rw [heq] at hpost hcall
      exact AllWrites_append
        (AllWrites_mono (fun w hw => driverWrite_read_write hpost hw) (hcall tr2 rfl))
        (ih g2 s2 hpost)

/-- C19. The driver never requests a read: for all constructor arguments and
every sequence of public calls with any arguments (also one that ends in
termination), every byte written to the bus by the constructor and by the
calls has the READ_WRITE bit 0x02 clear. -/
theorem C19_read_write_bit_never_set (address columns rows I2C SDA SCL : Nat)
    (ops : List Op) :
    AllWrites (fun w => w &&& READ_WRITE = 0)
        (LCD_I2C.ctor address columns rows I2C SDA SCL).2
    ∧ AllWrites (fun w => w &&& READ_WRITE = 0)
        (run Statics.start (LCD_I2C.ctor address columns rows I2C SDA SCL).1 ops).1
    ∧ AllWrites (fun w => w &&& READ_WRITE = 0)
        ((LCD_I2C.ctor address columns rows I2C SDA SCL).2
          ++ (run Statics.start (LCD_I2C.ctor address columns rows I2C SDA SCL).1 ops).1) := by
  have h1 : AllWrites (fun w => w &&& READ_WRITE = 0)
      (LCD_I2C.ctor address columns rows I2C SDA SCL).2 :=
    AllWrites_mono (fun w hw => driverWrite_read_write (Or.inl rfl) hw)
      (ctor_driverWrite address columns rows I2C SDA SCL)
  have h2 : AllWrites (fun w => w &&& READ_WRITE = 0)
      (run Statics.start (LCD_I2C.ctor address columns rows I2C SDA SCL).1 ops).1 :=
    run_read_write ops _ _ (by rw [ctor_state]; exact Or.inl rfl)
  exact ⟨h1, h2, AllWrites_append h1 h2⟩

/-! ## C15: the index into the row-offset table -/

/-- C15. The clamp `std::min(rows, row)` yields `rows` for every `row ≥ rows`.
With 4 rows the clamped index is 4 for every `row ≥ 4`, outside the four-entry
table: `ROW_OFFSETS.at(4)` takes its out-of-range branch and the program
terminates, as on the 20x4 object for `SetCursor(4, 0)` and `SetCursor(255, 0)`.
With at most 3 rows the lookup always succeeds. -/
theorem C15_SetCursor_index_reaches_4 :
    (∀ (columns : Nat) (g : Statics) (s : LCD_I2C) (row column : Nat),
        SessionInv columns 4 g s → 4 ≤ row → (s.SetCursor g row column).2 = none)
    ∧ (∀ (columns rows : Nat) (g : Statics) (s : LCD_I2C) (row column : Nat),
        SessionInv columns rows g s → rows ≤ 3 →
          ∃ tr, (s.SetCursor g row column).2 = some tr)
    ∧ min lcd20x4.rows 4 = 4
    ∧ lcd20x4.ROW_OFFSETS_init.get? 4 = none
    ∧ (lcd20x4.SetCursor Statics.start 4 0).2 = none
    ∧ (lcd20x4.SetCursor Statics.start 255 0).2 = none
    ∧ (run Statics.start lcd20x4 [Op.SetCursor 4 0, Op.PrintChar 0x41]) = ([], none) := by
  refine ⟨?_, ?_, by decide, by decide, by decide, by decide, by decide⟩
  · intro columns g s row column h hrow
    obtain ⟨hc, hr, hg⟩ := h
    have h1 : min 4 row = 4 := Nat.min_eq_left hrow
    rcases hg with hg | hg <;>
    · simp only [LCD_I2C.SetCursor, hg, LCD_I2C.ROW_OFFSETS_init, hc, hr, h1]
      rfl
  · intro columns rows g s row column h hrows
    obtain ⟨hc, hr, hg⟩ := h
    have h1 : min rows row < 4 := by omega
    rcases hg with hg | hg <;>
    · simp only [LCD_I2C.SetCursor, hg, LCD_I2C.ROW_OFFSETS_init, hc, hr]
      generalize min rows row = i at h1
      interval_cases i <;> exact ⟨_, rfl⟩

/-! ## C20: the row-offset table is shared by all objects -/

/-- C20. The table `ROW_OFFSETS` is a function-local static: the first call of
`SetCursor` in the program fixes it for every object. For any two objects `a`
and `b`, once `a` has called `SetCursor`, `b.SetCursor` uses the offsets
computed from the columns of `a`. With a 16x4 and a 20x4 object: if the 16x4
object calls first, `SetCursor(2, 0)` on the 20x4 object sends
`SET_DDRAM_ADDR | 16 = 0x90` and not `SET_DDRAM_ADDR | 20 = 0x94`; if the 20x4
object calls first, `SetCursor(2, 0)` on the 16x4 object sends 0x94 and not
0x90. -/
theorem C20_row_offsets_shared_between_objects :
    (∀ (a b : LCD_I2C) (r c row column : Nat),
        b.SetCursor (a.SetCursor Statics.start r c).1 row column
          = b.SetCursor { ROW_OFFSETS := some a.ROW_OFFSETS_init } row column)
    ∧ (lcd16x4.SetCursor Statics.start 2 0).2 = some (lcd16x4.Send_Command 0x90)
    ∧ (lcd20x4.SetCursor (lcd16x4.SetCursor Statics.start 2 0).1 2 0).2
        = some (lcd20x4.Send_Command 0x90)
    ∧ (lcd20x4.SetCursor (lcd16x4.SetCursor Statics.start 2 0).1 2 0).2
        ≠ some (lcd20x4.Send_Command (SET_DDRAM_ADDR ||| lcd20x4.columns))
    ∧ (lcd20x4.SetCursor Statics.start 2 0).2 = some (lcd20x4.Send_Command 0x94)
    ∧ (lcd16x4.SetCursor (lcd20x4.SetCursor Statics.start 2 0).1 2 0).2
        = some (lcd16x4.Send_Command 0x94)
    ∧ (lcd16x4.SetCursor (lcd20x4.SetCursor Statics.start 2 0).1 2 0).2
        ≠ some (lcd16x4.Send_Command (SET_DDRAM_ADDR ||| lcd16x4.columns)) := by
  refine ⟨?_, by decide, by decide, by decide, by decide, by decide, by decide⟩
  intro a b r c row column
  have h : (a.SetCursor Statics.start r c).1 = { ROW_OFFSETS := some a.ROW_OFFSETS_init } := by
    simp only [LCD_I2C.SetCursor, Statics.start]
    split <;> rfl
  rw [h]

/-! ## C13: the stored flags are the last ones transmitted -/

/-- The latched bytes of a concatenation. -/
theorem latched_append (a b : List Nat) : latched (a ++ b) = latched a ++ latched b := by
  simp only [latched, List.filter_append]

/-- Decoding splits at a frame boundary. -/
theorem decodeFrames_append (n : Nat) :
    ∀ (a b : List Nat), a.length = 2 * n →
      decodeFrames (a ++ b) = decodeFrames a ++ decodeFrames b := by
  induction n with
  | zero =>
    intro a b h
    have : a = [] := List.length_eq_zero.mp (by omega)
    subst this
    rfl
  | succ n ih =>
    intro a b h
    match a, h with
    | x :: y :: rest, h =>
      have hr : rest.length = 2 * n := by simp only [List.length_cons] at h; omega
      show decodeFrames (x :: y :: (rest ++ b)) = decodeFrames (x :: y :: rest) ++ decodeFrames b
      simp only [decodeFrames, ih rest b hr, List.cons_append]

/-- The frames of a concatenation whose first part ends at a frame boundary. -/
theorem framesSent_append (a b : List Event) (h : (latched (busWrites a)).length % 2 = 0) :
    framesSent (a ++ b) = framesSent a ++ framesSent b := by
  simp only [framesSent, busWrites_append, latched_append]
  exact decodeFrames_append ((latched (busWrites a)).length / 2) _ _ (by omega)

/-- The commands of a concatenation whose first part ends at a frame boundary. -/
theorem commandsSent_append (a b : List Event) (h : (latched (busWrites a)).length % 2 = 0) :
    commandsSent (a ++ b) = commandsSent a ++ commandsSent b := by
  simp only [commandsSent, framesSent_append a b h, List.filter_append, List.map_append]

/-- Masking with `0xF0` only sees the low byte. -/
theorem and_F0_mod (v : Nat) : v &&& 0xF0 = (v % 256) &&& 0xF0 := by
  have h := Nat.and_pow_two_sub_one_eq_mod v 8
  have e : (2 ^ 8 - 1 : Nat) &&& 0xF0 = 0xF0 := by decide
  rw [show (256 : Nat) = 2 ^ 8 from rfl, ← h, Nat.and_assoc, e]

/-- `Send_Byte` only depends on the low byte of its value. -/
theorem Send_Byte_mod (s : LCD_I2C) (v mode : Nat) :
    s.Send_Byte v mode = s.Send_Byte (v % 256) mode := by
  have h1 : v &&& LCD_I2C.UPPER_NIBBLE = (v % 256) &&& LCD_I2C.UPPER_NIBBLE := and_F0_mod v
  have h2 : (v <<< 4) &&& LCD_I2C.UPPER_NIBBLE = ((v % 256) <<< 4) &&& LCD_I2C.UPPER_NIBBLE := by
    have a := and_F0_mod (v <<< 4)
    have b := and_F0_mod ((v % 256) <<< 4)
    have c : (v <<< 4) % 256 = ((v % 256) <<< 4) % 256 := by
      simp only [Nat.shiftLeft_eq]
      omega
    show (v <<< 4) &&& 0xF0 = ((v % 256) <<< 4) &&& 0xF0
    rw [a, b, c]
  simp only [LCD_I2C.Send_Byte, h1, h2]

set_option maxRecDepth 100000 in
/-- Decoding the six writes of `Send_Byte` for a byte `v` gives back the mode
and `v`. -/
theorem decode_arith : ∀ m, m < 2 → ∀ b, b < 2 → ∀ v, v < 256 →
    decodeFrames (latched
      [toByte (toByte (toByte (v &&& 0xF0) ||| m) ||| 8 * b),
       toByte (toByte (toByte (toByte (v &&& 0xF0) ||| m) ||| ENABLE) ||| 8 * b),
       toByte (toByte (toByte (toByte (v &&& 0xF0) ||| m) &&& bitNot ENABLE) ||| 8 * b),
       toByte (toByte (toByte ((v <<< 4) &&& 0xF0) ||| m) ||| 8 * b),
       toByte (toByte (toByte (toByte ((v <<< 4) &&& 0xF0) ||| m) ||| ENABLE) ||| 8 * b),
       toByte (toByte (toByte (toByte ((v <<< 4) &&& 0xF0) ||| m) &&& bitNot ENABLE)
         ||| 8 * b)]) = [(m, v)] := by
  intro m hm b hb
  interval_cases m <;> interval_cases b <;> decide

/-- `Send_Byte` transmits one frame, made of two latched bytes: its mode and
the low byte of its value. -/
theorem framesSent_Send_Byte (s : LCD_I2C) (v mode : Nat) (hm : mode < 2)
    (hb : backlightValid s) :
    (latched (busWrites (s.Send_Byte v mode))).length = 2
    ∧ framesSent (s.Send_Byte v mode) = [(mode, v % 256)] := by
  obtain ⟨b, hb2, hbl⟩ := backlight_cases hb
  have hlen := (enablePulses_Send_Byte s v mode hm hb).1
  have hdec := decode_arith mode hm b hb2 (v % 256) (Nat.mod_lt _ (by decide))
  constructor
  · obtain ⟨k, hk, hH⟩ := and_F0_nibble v
    obtain ⟨j, hj, hL⟩ := and_F0_nibble (v <<< 4)
    obtain ⟨a1, a2, a3, a4, a5, -⟩ := nibble_arith k hk mode hm b hb2
    obtain ⟨b1, b2, b3, b4, b5, -⟩ := nibble_arith j hj mode hm b hb2
    rw [busWrites_Send_Byte, hH, hL, hbl, a1, a2, a3, b1, b2, b3]
    simp [latched, a4, a5, b4, b5]
  · rw [Send_Byte_mod, framesSent, busWrites_Send_Byte, hbl]
    exact hdec

/-- `Send_Command` of a byte transmits that one command. -/
theorem commandsSent_Send_Command (s : LCD_I2C) (c : Nat) (hc : c < 256)
    (hb : backlightValid s) :
    (latched (busWrites (s.Send_Command c))).length % 2 = 0
    ∧ commandsSent (s.Send_Command c) = [c] := by
  obtain ⟨h1, h2⟩ := framesSent_Send_Byte s c COMMAND (by decide) hb
  refine ⟨by rw [LCD_I2C.Send_Command, h1], ?_⟩
  rw [commandsSent, LCD_I2C.Send_Command, h2, Nat.mod_eq_of_lt hc]
  rfl

/-- `Send_Byte` with the register-select bit transmits no command. -/
theorem NoCommand_Send_Byte_data (s : LCD_I2C) (v : Nat) (hb : backlightValid s) :
    NoCommand (s.Send_Byte v 1) := by
  obtain ⟨h1, h2⟩ := framesSent_Send_Byte s v 1 (by decide) hb
  refine ⟨by rw [h1], ?_⟩
  rw [commandsSent, h2]
  rfl

/-- The empty trace transmits no command. -/
theorem NoCommand_nil : NoCommand [] := ⟨rfl, rfl⟩

/-- Concatenation keeps `NoCommand`. -/
theorem NoCommand_append {a b : List Event} (ha : NoCommand a) (hb : NoCommand b) :
    NoCommand (a ++ b) := by
  refine ⟨?_, ?_⟩
  · rw [busWrites_append, latched_append, List.length_append]
    have := ha.1
    have := hb.1
    omega
  · rw [commandsSent_append a b ha.1, ha.2, hb.2]
    rfl

/-- `PrintString` transmits no command. -/
theorem NoCommand_PrintString (s : LCD_I2C) (str : List Nat) (hb : backlightValid s) :
    NoCommand (s.PrintString str) := by
  induction str with
  | nil => exact NoCommand_nil
  | cons c str ih => exact NoCommand_append (NoCommand_Send_Byte_data s _ hb) ih

/-- The loop of `CreateCustomChar` transmits no command. -/
theorem NoCommand_CreateCustomChar_loop (s : LCD_I2C) (char_map : LCD_I2C.array)
    (hb : backlightValid s) (n : Nat) :
    ∀ i, NoCommand (LCD_I2C.CreateCustomChar_loop s char_map i n) := by
  induction n with
  | zero => intro i; exact NoCommand_nil
  | succ n ih =>
    intro i
    rw [LCD_I2C.CreateCustomChar_loop]
    refine NoCommand_append ?_ (ih (i + 1))
    split
    · exact NoCommand_Send_Byte_data s _ hb
    · exact NoCommand_nil

/-- The write of `BacklightOn` / `BacklightOff` transmits no command. -/
theorem NoCommand_backlight_write (s : LCD_I2C) (hb : backlightValid s) :
    NoCommand (s.I2C_Write_Byte s.backlight) := by
  rcases hb with h | h <;>
  · simp only [NoCommand, commandsSent, framesSent, LCD_I2C.I2C_Write_Byte, busWrites, h]
    decide

/-- Arithmetic of the display-control flags below 8. -/
theorem dc_arith : ∀ d, d < 8 →
    (∀ i, i < 3 → toByte (d ||| 2 ^ i) < 8 ∧ toByte (d &&& bitNot (2 ^ i)) < 8)
    ∧ toByte (DISPLAY_CONTROL ||| d) = DISPLAY_CONTROL ||| d
    ∧ DISPLAY_CONTROL ||| d < 256
    ∧ isDisplayControl (DISPLAY_CONTROL ||| d) = true
    ∧ isEntryModeSet (DISPLAY_CONTROL ||| d) = false := by
  decide

/-- Arithmetic of the entry-mode flags below 4. -/
theorem dm_arith : ∀ m, m < 4 →
    toByte (m ||| ENTRY_LEFT) < 4 ∧ toByte (m &&& bitNot ENTRY_LEFT) < 4
    ∧ toByte (ENTRY_MODE_SET ||| m) = ENTRY_MODE_SET ||| m
    ∧ ENTRY_MODE_SET ||| m < 256
    ∧ isDisplayControl (ENTRY_MODE_SET ||| m) = false
    ∧ isEntryModeSet (ENTRY_MODE_SET ||| m) = true := by
  decide

set_option maxRecDepth 100000 in
/-- A command byte with bit 7 set is neither display control nor entry mode. -/
theorem high_cmd_arith : ∀ c, c < 256 → c.testBit 7 = true →
    isDisplayControl c = false ∧ isEntryModeSet c = false := by
  decide

/-- The command of `SetCursor` is neither display control nor entry mode. -/
theorem ddram_cmd (x : Nat) :
    toByte (SET_DDRAM_ADDR ||| x) < 256
    ∧ isDisplayControl (toByte (SET_DDRAM_ADDR ||| x)) = false
    ∧ isEntryModeSet (toByte (SET_DDRAM_ADDR ||| x)) = false := by
  have hlt : toByte (SET_DDRAM_ADDR ||| x) < 256 := Nat.mod_lt _ (by decide)
  have h7 : (toByte (SET_DDRAM_ADDR ||| x)).testBit 7 = true := by
    have e : (128 : Nat).testBit 7 = true := by decide
    show ((128 ||| x) % 2 ^ 8).testBit 7 = true
    rw [Nat.testBit_mod_two_pow, Nat.testBit_or, e]
    rfl
  exact ⟨hlt, high_cmd_arith _ hlt h7⟩

/-- The address command of `CreateCustomChar` is neither display control nor
entry mode. -/
theorem cgram_cmd (location : Nat) :
    toByte (SET_CGRAM_ADDR ||| (min LCD_I2C.MAX_CUSTOM_CHARS location <<< 3)) < 256
    ∧ isDisplayControl
        (toByte (SET_CGRAM_ADDR ||| (min LCD_I2C.MAX_CUSTOM_CHARS location <<< 3))) = false
    ∧ isEntryModeSet
        (toByte (SET_CGRAM_ADDR ||| (min LCD_I2C.MAX_CUSTOM_CHARS location <<< 3))) = false := by
  have h : min LCD_I2C.MAX_CUSTOM_CHARS location < 9 :=
    Nat.lt_succ_of_le (Nat.min_le_left _ _)
  generalize min LCD_I2C.MAX_CUSTOM_CHARS location = i at h
  interval_cases i <;> decide

/-- The commands of one `Send_Command`, filtered by a kind. -/
theorem filter_commandsSent_Send_Command (s : LCD_I2C) (c : Nat) (hc : c < 256)
    (hb : backlightValid s) (p : Nat → Bool) :
    (commandsSent (s.Send_Command c)).filter p = if p c = true then [c] else [] := by
  rw [(commandsSent_Send_Command s c hc hb).2]
  cases h : p c <;> simp [List.filter, h]

/-- A call that re-sends display_control transmits exactly that
display-control command and no entry-mode command. -/
theorem dc_op_commands (s1 : LCD_I2C) (h1 : s1.display_control < 8)
    (hb : backlightValid s1) :
    (latched (busWrites
        (s1.Send_Command (toByte (DISPLAY_CONTROL ||| s1.display_control))))).length % 2 = 0
    ∧ (commandsSent (s1.Send_Command (toByte (DISPLAY_CONTROL ||| s1.display_control)))).filter
        isDisplayControl = [DISPLAY_CONTROL ||| s1.display_control]
    ∧ (commandsSent (s1.Send_Command (toByte (DISPLAY_CONTROL ||| s1.display_control)))).filter
        isEntryModeSet = [] := by
  obtain ⟨-, e, hlt, hdc, hem⟩ := dc_arith _ h1
  rw [e]
  refine ⟨(commandsSent_Send_Command s1 _ hlt hb).1, ?_, ?_⟩
  · rw [filter_commandsSent_Send_Command s1 _ hlt hb, hdc]; rfl
  · rw [filter_commandsSent_Send_Command s1 _ hlt hb, hem]; rfl

/-- A call that re-sends display_mode transmits exactly that entry-mode command
and no display-control command. -/
theorem dm_op_commands (s1 : LCD_I2C) (h1 : s1.display_mode < 4)
    (hb : backlightValid s1) :
    (latched (busWrites
        (s1.Send_Command (toByte (ENTRY_MODE_SET ||| s1.display_mode))))).length % 2 = 0
    ∧ (commandsSent (s1.Send_Command (toByte (ENTRY_MODE_SET ||| s1.display_mode)))).filter
        isDisplayControl = []
    ∧ (commandsSent (s1.Send_Command (toByte (ENTRY_MODE_SET ||| s1.display_mode)))).filter
        isEntryModeSet = [ENTRY_MODE_SET ||| s1.display_mode] := by
  obtain ⟨-, -, e, hlt, hdc, hem⟩ := dm_arith _ h1
  rw [e]
  refine ⟨(commandsSent_Send_Command s1 _ hlt hb).1, ?_, ?_⟩
  · rw [filter_commandsSent_Send_Command s1 _ hlt hb, hdc]; rfl
  · rw [filter_commandsSent_Send_Command s1 _ hlt hb, hem]; rfl

/-- A command of another kind transmits neither a display-control nor an
entry-mode command. -/
theorem other_op_commands (s1 : LCD_I2C) (c : Nat) (hlt : c < 256)
    (hdc : isDisplayControl c = false) (hem : isEntryModeSet c = false)
    (hb : backlightValid s1) :
    (latched (busWrites (s1.Send_Command c))).length % 2 = 0
    ∧ (commandsSent (s1.Send_Command c)).filter isDisplayControl = []
    ∧ (commandsSent (s1.Send_Command c)).filter isEntryModeSet = [] := by
  refine ⟨(commandsSent_Send_Command s1 _ hlt hb).1, ?_, ?_⟩
  · rw [filter_commandsSent_Send_Command s1 _ hlt hb, hdc]; rfl
  · rw [filter_commandsSent_Send_Command s1 _ hlt hb, hem]; rfl

/-- The display-control and entry-mode commands of one public call: either the
call transmits none of a kind and leaves the member, or it transmits exactly
the command that carries the member's new value. Every call ends at a frame
boundary and keeps the flag members in range. -/
theorem call_commands (op : Op) (g : Statics) (s : LCD_I2C) (tr : List Event)
    (hdc : s.display_control < 8) (hdm : s.display_mode < 4) (hb : backlightValid s)
    (htr : (op.call g s).2 = some tr) :
    (latched (busWrites tr)).length % 2 = 0
    ∧ (op.call g s).1.2.display_control < 8
    ∧ (op.call g s).1.2.display_mode < 4
    ∧ (((commandsSent tr).filter isDisplayControl = []
          ∧ (op.call g s).1.2.display_control = s.display_control)
        ∨ (commandsSent tr).filter isDisplayControl
            = [DISPLAY_CONTROL ||| (op.call g s).1.2.display_control])
    ∧ (((commandsSent tr).filter isEntryModeSet = []
          ∧ (op.call g s).1.2.display_mode = s.display_mode)
        ∨ (commandsSent tr).filter isEntryModeSet
            = [ENTRY_MODE_SET ||| (op.call g s).1.2.display_mode]) := by
  have hset := (dc_arith _ hdc).1
  have hno : ∀ t : List Event, NoCommand t →
      (latched (busWrites t)).length % 2 = 0
      ∧ (commandsSent t).filter isDisplayControl = []
      ∧ (commandsSent t).filter isEntryModeSet = [] := by
    intro t ht
    refine ⟨ht.1, ?_, ?_⟩ <;> rw [ht.2] <;> rfl
  cases op
  case DisplayOn =>
    simp only [Op.call, Option.some.injEq] at htr
    subst htr
    have h1 : (s.DisplayOn).1.display_control < 8 := (hset 2 (by decide)).1
    obtain ⟨a, b, c⟩ := dc_op_commands (s.DisplayOn).1 h1 hb
    exact ⟨a, h1, hdm, Or.inr b, Or.inl ⟨c, rfl⟩⟩
  case DisplayOff =>
    simp only [Op.call, Option.some.injEq] at htr
    subst htr
    have h1 : (s.DisplayOff).1.display_control < 8 := (hset 2 (by decide)).2
    obtain ⟨a, b, c⟩ := dc_op_commands (s.DisplayOff).1 h1 hb
    exact ⟨a, h1, hdm, Or.inr b, Or.inl ⟨c, rfl⟩⟩
  case CursorOn =>
    simp only [Op.call, Option.some.injEq] at htr
    subst htr
    have h1 : (s.CursorOn).1.display_control < 8 := (hset 1 (by decide)).1
    obtain ⟨a, b, c⟩ := dc_op_commands (s.CursorOn).1 h1 hb
    exact ⟨a, h1, hdm, Or.inr b, Or.inl ⟨c, rfl⟩⟩
  case CursorOff =>
    simp only [Op.call, Option.some.injEq] at htr
    subst htr
    have h1 : (s.CursorOff).1.display_control < 8 := (hset 1 (by decide)).2
    obtain ⟨a, b, c⟩ := dc_op_commands (s.CursorOff).1 h1 hb
    exact ⟨a, h1, hdm, Or.inr b, Or.inl ⟨c, rfl⟩⟩
  case CursorBlinkOn =>
    simp only [Op.call, Option.some.injEq] at htr
    subst htr
    have h1 : (s.CursorBlinkOn).1.display_control < 8 := (hset 0 (by decide)).1
    obtain ⟨a, b, c⟩ := dc_op_commands (s.CursorBlinkOn).1 h1 hb
    exact ⟨a, h1, hdm, Or.inr b, Or.inl ⟨c, rfl⟩⟩
  case CursorBlinkOff =>
    simp only [Op.call, Option.some.injEq] at htr
    subst htr
    have h1 : (s.CursorBlinkOff).1.display_control < 8 := (hset 0 (by decide)).2
    obtain ⟨a, b, c⟩ := dc_op_commands (s.CursorBlinkOff).1 h1 hb
    exact ⟨a, h1, hdm, Or.inr b, Or.inl ⟨c, rfl⟩⟩
  case SetTextLeftToRight =>
    simp only [Op.call, Option.some.injEq] at htr
    subst htr
    have h1 : (s.SetTextLeftToRight).1.display_mode < 4 := (dm_arith _ hdm).1
    obtain ⟨a, b, c⟩ := dm_op_commands (s.SetTextLeftToRight).1 h1 hb
    exact ⟨a, hdc, h1, Or.inl ⟨b, rfl⟩, Or.inr c⟩
  case SetTextRightToLeft =>
    simp only [Op.call, Option.some.injEq] at htr
    subst htr
    have h1 : (s.SetTextRightToLeft).1.display_mode < 4 := (dm_arith _ hdm).2.1
    obtain ⟨a, b, c⟩ := dm_op_commands (s.SetTextRightToLeft).1 h1 hb
    exact ⟨a, hdc, h1, Or.inl ⟨b, rfl⟩, Or.inr c⟩
  case BacklightOn =>
    simp only [Op.call, Option.some.injEq] at htr
    subst htr
    obtain ⟨a, b, c⟩ := hno _ (NoCommand_backlight_write (s.BacklightOn).1 (Or.inr rfl))
    exact ⟨a, hdc, hdm, Or.inl ⟨b, rfl⟩, Or.inl ⟨c, rfl⟩⟩
  case BacklightOff =>
    simp only [Op.call, Option.some.injEq] at htr
    subst htr
    obtain ⟨a, b, c⟩ := hno _ (NoCommand_backlight_write (s.BacklightOff).1 (Or.inl rfl))
    exact ⟨a, hdc, hdm, Or.inl ⟨b, rfl⟩, Or.inl ⟨c, rfl⟩⟩
  case SetBacklight light_on =>
    cases light_on
    · simp only [Op.call, Option.some.injEq] at htr
      subst htr
      obtain ⟨a, b, c⟩ := hno _ (NoCommand_backlight_write (s.BacklightOff).1 (Or.inl rfl))
      exact ⟨a, hdc, hdm, Or.inl ⟨b, rfl⟩, Or.inl ⟨c, rfl⟩⟩
    · simp only [Op.call, Option.some.injEq] at htr
      subst htr
      obtain ⟨a, b, c⟩ := hno _ (NoCommand_backlight_write (s.BacklightOn).1 (Or.inr rfl))
      exact ⟨a, hdc, hdm, Or.inl ⟨b, rfl⟩, Or.inl ⟨c, rfl⟩⟩
  case Clear =>
    simp only [Op.call, Option.some.injEq] at htr
    subst htr
    obtain ⟨a, b, c⟩ := other_op_commands s CLEAR_DISPLAY (by decide) (by decide)
      (by decide) hb
    exact ⟨a, hdc, hdm, Or.inl ⟨b, rfl⟩, Or.inl ⟨c, rfl⟩⟩
  case Home =>
    simp only [Op.call, Option.some.injEq] at htr
    subst htr
    obtain ⟨a, b, c⟩ := other_op_commands s RETURN_HOME (by decide) (by decide)
      (by decide) hb
    exact ⟨a, hdc, hdm, Or.inl ⟨b, rfl⟩, Or.inl ⟨c, rfl⟩⟩
  case SetCursor row column =>
    simp only [Op.call, LCD_I2C.SetCursor] at htr
    split at htr
    · simp at htr
    · simp only [Option.some.injEq] at htr
      subst htr
      obtain ⟨h1, h2, h3⟩ := ddram_cmd (_ + min s.columns column)
      obtain ⟨a, b, c⟩ := other_op_commands s _ h1 h2 h3 hb
      exact ⟨a, hdc, hdm, Or.inl ⟨b, rfl⟩, Or.inl ⟨c, rfl⟩⟩
  case PrintChar character =>
    simp only [Op.call, Option.some.injEq] at htr
    subst htr
    obtain ⟨a, b, c⟩ := hno _ (NoCommand_Send_Byte_data s character hb)
    exact ⟨a, hdc, hdm, Or.inl ⟨b, rfl⟩, Or.inl ⟨c, rfl⟩⟩
  case PrintString str =>
    simp only [Op.call, Option.some.injEq] at htr
    subst htr
    obtain ⟨a, b, c⟩ := hno _ (NoCommand_PrintString s str hb)
    exact ⟨a, hdc, hdm, Or.inl ⟨b, rfl⟩, Or.inl ⟨c, rfl⟩⟩
  case PrintCustomChar location =>
    simp only [Op.call, Option.some.injEq] at htr
    subst htr
    obtain ⟨a, b, c⟩ := hno _ (NoCommand_Send_Byte_data s location hb)
    exact ⟨a, hdc, hdm, Or.inl ⟨b, rfl⟩, Or.inl ⟨c, rfl⟩⟩
  case CreateCustomChar location char_map =>
    simp only [Op.call, Option.some.injEq] at htr
    subst htr
    obtain ⟨h1, h2, h3⟩ := cgram_cmd location
    obtain ⟨a, b, c⟩ := other_op_commands s _ h1 h2 h3 hb
    have hl := NoCommand_CreateCustomChar_loop s char_map hb CUSTOM_SYMBOL_SIZE 0
    have hcs := commandsSent_append
      (s.Send_Command (toByte (SET_CGRAM_ADDR |||
        (min LCD_I2C.MAX_CUSTOM_CHARS location <<< 3))))
      (LCD_I2C.CreateCustomChar_loop s char_map 0 CUSTOM_SYMBOL_SIZE) a
    refine ⟨?_, hdc, hdm, Or.inl ⟨?_, rfl⟩, Or.inl ⟨?_, rfl⟩⟩
    · simp only [LCD_I2C.CreateCustomChar, busWrites_append, latched_append,
        List.length_append]
      have := hl.1
      omega
    · simp only [LCD_I2C.CreateCustomChar, hcs, List.filter_append, b, hl.2]
      rfl
    · simp only [LCD_I2C.CreateCustomChar, hcs, List.filter_append, c, hl.2]
      rfl

/-- A public call that writes nothing leaves the backlight member. -/
theorem call_no_write_backlight (op : Op) (g : Statics) (s : LCD_I2C) (tr : List Event)
    (htr : (op.call g s).2 = some tr) (hw : busWrites tr = []) :
    (op.call g s).1.2.backlight = s.backlight := by
  cases op
  case BacklightOn =>
    simp only [Op.call, Option.some.injEq] at htr
    subst htr
    simp [LCD_I2C.BacklightOn, LCD_I2C.I2C_Write_Byte, busWrites] at hw
  case BacklightOff =>
    simp only [Op.call, Option.some.injEq] at htr
    subst htr
    simp [LCD_I2C.BacklightOff, LCD_I2C.I2C_Write_Byte, busWrites] at hw
  case SetBacklight light_on =>
    cases light_on
    · simp only [Op.call, Option.some.injEq] at htr
      subst htr
      simp [LCD_I2C.SetBacklight, LCD_I2C.BacklightOff, LCD_I2C.I2C_Write_Byte,
        busWrites] at hw
    · simp only [Op.call, Option.some.injEq] at htr
      subst htr
      simp [LCD_I2C.SetBacklight, LCD_I2C.BacklightOn, LCD_I2C.I2C_Write_Byte,
        busWrites] at hw
  all_goals rfl

/-- The most recent element of a kind after appending either nothing of the
kind or one element. -/
theorem getLast?_filter_append (p : Nat → Bool) (a b : List Nat) (x y : Nat)
    (ha : (a.filter p).getLast? = some x)
    (hb : (b.filter p = [] ∧ y = x) ∨ b.filter p = [y]) :
    ((a ++ b).filter p).getLast? = some y := by
  rw [List.filter_append, List.getLast?_append]
  rcases hb with ⟨h, rfl⟩ | h
  · rw [h, ha]; rfl
  · rw [h]; rfl

/-- One public call keeps `FlagInv`, the trace growing by the trace of the
call. -/
theorem FlagInv_call (op : Op) (g : Statics) (s : LCD_I2C) (T tr : List Event)
    (h : FlagInv T s) (htr : (op.call g s).2 = some tr) :
    FlagInv (T ++ tr) (op.call g s).1.2 := by
  obtain ⟨hev, hdc, hlastdc, hdm, hlastdm, hb, w, hw, hwb⟩ := h
  obtain ⟨c1, c2, c3, c4, c5⟩ := call_commands op g s tr hdc hdm hb htr
  obtain ⟨hb', hall⟩ := call_driverWrite op g s hb
  have hcs := commandsSent_append T tr hev
  refine ⟨?_, c2, ?_, c3, ?_, hb', ?_⟩
  · rw [busWrites_append, latched_append, List.length_append]
    omega
  · rw [lastCommand, hcs]
    refine getLast?_filter_append _ _ _ _ _ hlastdc ?_
    rcases c4 with ⟨e1, e2⟩ | e1
    · exact Or.inl ⟨e1, by rw [e2]⟩
    · exact Or.inr e1
  · rw [lastCommand, hcs]
    refine getLast?_filter_append _ _ _ _ _ hlastdm ?_
    rcases c5 with ⟨e1, e2⟩ | e1
    · exact Or.inl ⟨e1, by rw [e2]⟩
    · exact Or.inr e1
  · rw [busWrites_append, List.getLast?_append]
    cases hl : (busWrites tr).getLast? with
    | none =>
      have hnil : busWrites tr = [] := List.getLast?_eq_none_iff.mp hl
      exact ⟨w, by rw [hw]; rfl,
        by rw [hwb, call_no_write_backlight op g s tr htr hnil]⟩
    | some v =>
      exact ⟨v, rfl, driverWrite_backlight hb'
        (hall tr htr v (List.mem_of_getLast?_eq_some hl))⟩

/-- A sequence of public calls keeps `FlagInv`, the trace growing by the trace
of the run. -/
theorem FlagInv_run (ops : List Op) :
    ∀ (g : Statics) (s : LCD_I2C) (T : List Event) (g1 : Statics) (s1 : LCD_I2C),
      FlagInv T s → (run g s ops).2 = some (g1, s1) →
        FlagInv (T ++ (run g s ops).1) s1 := by
  induction ops with
  | nil =>
    intro g s T g1 s1 h hrun
    simp only [run, Option.some.injEq, Prod.mk.injEq] at hrun
    obtain ⟨-, rfl⟩ := hrun
    simpa [run] using h
  | cons op ops ih =>
    intro g s T g1 s1 h hrun
    have hstep := FlagInv_call op g s T
    rw [run] at hrun ⊢
    split at hrun
    · simp at hrun
    · rename_i g2 s2 tr2 heq
      have hcall := hstep tr2 h (by rw [heq])
      rw [heq] at hcall
      have := ih g2 s2 (T ++ tr2) g1 s1 hcall hrun
      simpa [heq, List.append_assoc] using this

/-- The bus writes of the constructor. -/
theorem ctor_busWrites (address columns rows I2C SDA SCL : Nat) :
    busWrites (LCD_I2C.ctor address columns rows I2C SDA SCL).2 =
        [0x00, 0x04, 0x00, 0x30, 0x34, 0x30,
         0x00, 0x04, 0x00, 0x30, 0x34, 0x30,
         0x00, 0x04, 0x00, 0x30, 0x34, 0x30,
         0x00, 0x04, 0x00, 0x20, 0x24, 0x20,
         0x00, 0x04, 0x00, 0x60, 0x64, 0x60,
         0x20, 0x24, 0x20, 0x80, 0x84, 0x80,
         0x00, 0x04, 0x00, 0xC0, 0xC4, 0xC0,
         0x00, 0x04, 0x00, 0x10, 0x14, 0x10,
         0x00, 0x04, 0x00, 0x20, 0x24, 0x20] := by
  rw [ctor_trace]
  simp only [busWrites_append, LCD_I2C.Send_Command, busWrites_Send_Byte, ctor_state]
  rfl

/-- The constructor establishes `FlagInv`: its last display-control command is
0x0C, its last entry-mode command 0x06, its last byte 0x20. -/
theorem FlagInv_ctor (address columns rows I2C SDA SCL : Nat) :
    FlagInv (LCD_I2C.ctor address columns rows I2C SDA SCL).2
      (LCD_I2C.ctor address columns rows I2C SDA SCL).1 := by
  simp only [FlagInv, lastCommand, commandsSent, framesSent, ctor_busWrites, ctor_state,
    backlightValid]
  refine ⟨by decide, by decide, by decide, by decide, by decide, by decide,
    0x20, by decide, by decide⟩

/-- C13. In every state reached from construction by any sequence of public
calls, with `tr` the whole trace since the start of the constructor: the most
recent display-control command transmitted is `DISPLAY_CONTROL |
display_control` and its flag bits (mask 0x07) are display_control; the most
recent entry-mode command transmitted is `ENTRY_MODE_SET | display_mode` and
its flag bits (mask 0x03) are display_mode; the most recent byte written to
the bus carries the backlight member in bit 0x08. -/
theorem C13_flags_reflect_last_transmitted (address columns rows I2C SDA SCL : Nat)
    (ops : List Op) (g : Statics) (s : LCD_I2C)
    (hrun : (run Statics.start (LCD_I2C.ctor address columns rows I2C SDA SCL).1 ops).2
      = some (g, s)) :
    (∃ c, lastCommand isDisplayControl
          ((LCD_I2C.ctor address columns rows I2C SDA SCL).2
            ++ (run Statics.start (LCD_I2C.ctor address columns rows I2C SDA SCL).1 ops).1)
          = some c
        ∧ c = DISPLAY_CONTROL ||| s.display_control ∧ c &&& 0x07 = s.display_control)
    ∧ (∃ c, lastCommand isEntryModeSet
          ((LCD_I2C.ctor address columns rows I2C SDA SCL).2
            ++ (run Statics.start (LCD_I2C.ctor address columns rows I2C SDA SCL).1 ops).1)
          = some c
        ∧ c = ENTRY_MODE_SET ||| s.display_mode ∧ c &&& 0x03 = s.display_mode)
    ∧ (∃ w, (busWrites
          ((LCD_I2C.ctor address columns rows I2C SDA SCL).2
            ++ (run Statics.start (LCD_I2C.ctor address columns rows I2C SDA SCL).1 ops).1)
          ).getLast? = some w
        ∧ w &&& BACKLIGHT = s.backlight) := by
  obtain ⟨-, hdc, hlastdc, hdm, hlastdm, -, hw⟩ :=
    FlagInv_run ops _ _ _ g s (FlagInv_ctor address columns rows I2C SDA SCL) hrun
  have e1 : ∀ d, d < 8 → (DISPLAY_CONTROL ||| d) &&& 0x07 = d := by decide
  have e2 : ∀ m, m < 4 → (ENTRY_MODE_SET ||| m) &&& 0x03 = m := by decide
  exact ⟨⟨_, hlastdc, rfl, e1 _ hdc⟩, ⟨_, hlastdm, rfl, e2 _ hdm⟩, hw⟩

/-- C13 after `CursorOn`, `SetTextRightToLeft`, `BacklightOn`, `PrintChar('A')`,
`DisplayOff`, `DisplayOn` on the 16x2 object: display_control is 0x06 and the
last display-control command is 0x0E; display_mode is 0x00 and the last
entry-mode command is 0x04; the backlight is on and the last byte has bit 0x08
set. -/
theorem C13_flags_reflect_last_transmitted_witness :
    (run Statics.start (LCD_I2C.ctor 0x27 16 2 0 4 5).1 flags_ops).2
        = some (Statics.start,
            { lcd16x2 with display_control := 0x06, display_mode := 0x00,
                           backlight := BACKLIGHT })
    ∧ lastCommand isDisplayControl ((LCD_I2C.ctor 0x27 16 2 0 4 5).2
        ++ (run Statics.start (LCD_I2C.ctor 0x27 16 2 0 4 5).1 flags_ops).1) = some 0x0E
    ∧ lastCommand isEntryModeSet ((LCD_I2C.ctor 0x27 16 2 0 4 5).2
        ++ (run Statics.start (LCD_I2C.ctor 0x27 16 2 0 4 5).1 flags_ops).1) = some 0x04 := by
  have h := C13_flags_reflect_last_transmitted 0x27 16 2 0 4 5 flags_ops Statics.start
    { lcd16x2 with display_control := 0x06, display_mode := 0x00, backlight := BACKLIGHT }
    (by decide)
  obtain ⟨⟨c, h1, h2, -⟩, ⟨d, h3, h4, -⟩, -⟩ := h
  refine ⟨by decide, ?_, ?_⟩
  · rw [h1, h2]; rfl
  · rw [h3, h4]; rfl

/-! ## C14: what happens to a transport failure -/

/-- One transport result per bus write of a trace. -/
theorem transportResults_length (bus : Transport) (tr : List Event) :
    (transportResults bus tr).length = (busWrites tr).length := by
  induction tr with
  | nil => rfl
  | cons e tr ih => cases e <;> simp [transportResults, busWrites, ih]

/-- `PrintString` against a transport has the trace of `PrintString`. -/
theorem PrintString_on_eq (bus : Transport) (s : LCD_I2C) (str : List Nat) :
    s.PrintString_on bus str = (s.PrintString str, ()) := by
  induction str with
  | nil => rfl
  | cons c str ih =>
    rw [LCD_I2C.PrintString_on, ih]
    rfl

/-- The loop of `CreateCustomChar` against a transport has the trace of the
loop. -/
theorem CreateCustomChar_loop_on_eq (bus : Transport) (s : LCD_I2C)
    (char_map : LCD_I2C.array) (n : Nat) :
    ∀ i, LCD_I2C.CreateCustomChar_loop_on bus s char_map i n
      = (LCD_I2C.CreateCustomChar_loop s char_map i n, ()) := by
  induction n with
  | zero => intro i; rfl
  | succ n ih =>
    intro i
    rw [LCD_I2C.CreateCustomChar_loop_on, ih (i + 1), LCD_I2C.CreateCustomChar_loop]
    rfl

/-- A public call against any transport: the statics, the object and the trace
of the transport-free call, and nothing handed to the caller. -/
theorem call_on_eq (bus : Transport) (op : Op) (g : Statics) (s : LCD_I2C) :
    op.call_on bus g s = ((op.call g s).1, (op.call g s).2.map fun tr => (tr, ())) := by
  cases op
  case SetBacklight light_on => cases light_on <;> rfl
  case SetCursor row column =>
    simp only [Op.call_on, Op.call, LCD_I2C.SetCursor_on, LCD_I2C.SetCursor]
    split <;> rfl
  case PrintString str =>
    simp only [Op.call_on, Op.call, PrintString_on_eq, Option.map]
  case CreateCustomChar location char_map =>
    simp only [Op.call_on, Op.call, LCD_I2C.CreateCustomChar_on, LCD_I2C.CreateCustomChar,
      CreateCustomChar_loop_on_eq, Option.map]
    rfl
  all_goals rfl

/-- A sequence of public calls against any transport reaches the state and
produces the trace of the transport-free run. -/
theorem run_on_eq (bus : Transport) (ops : List Op) :
    ∀ (g : Statics) (s : LCD_I2C), run_on bus g s ops = run g s ops := by
  induction ops with
  | nil => intro g s; rfl
  | cons op ops ih =>
    intro g s
    rw [run_on, run, call_on_eq]
    cases h : (op.call g s).2 with
    | none =>
      rcases hc : op.call g s with ⟨⟨g1, s1⟩, o⟩
      rw [hc] at h
      simp only at h
      subst h
      rfl
    | some tr =>
      rcases hc : op.call g s with ⟨⟨g1, s1⟩, o⟩
      rw [hc] at h
      simp only at h
      subst h
      simp only [Option.map, ih]

/-- The constructor against any transport builds the object and produces the
trace of the transport-free constructor. -/
theorem ctor_on_eq (bus : Transport) (address columns rows I2C SDA SCL : Nat) :
    LCD_I2C.ctor_on bus address columns rows I2C SDA SCL
      = LCD_I2C.ctor address columns rows I2C SDA SCL := rfl

/-- C14, as stated, fails on the 16x2 object with a transport on which every
write fails: the transport reports -1 for the write of `BacklightOn`, and
`BacklightOn` hands its caller the same (empty) result, the same object and
the same trace as on a working transport; the call through `Op.call` completes
normally with the backlight member set; `Send_Byte(0xAB, CHAR)` goes on to
issue all six writes although each one is reported as failed. -/
theorem C14_failure_not_surfaced :
    transportResults deadBus (lcd16x2.BacklightOn_on deadBus).1.2 = [-1]
    ∧ lcd16x2.BacklightOn_on deadBus = lcd16x2.BacklightOn_on okBus
    ∧ (lcd16x2.BacklightOn_on deadBus).2 = ()
    ∧ Op.BacklightOn.call Statics.start lcd16x2
        = ((Statics.start, { lcd16x2 with backlight := BACKLIGHT }),
            some [Event.i2c_write_blocking 0 0x27 0x08])
    ∧ lcd16x2.Send_Byte_on deadBus 0xAB CHAR = lcd16x2.Send_Byte_on okBus 0xAB CHAR
    ∧ transportResults deadBus (lcd16x2.Send_Byte_on deadBus 0xAB CHAR).1
        = [-1, -1, -1, -1, -1, -1] := by
  decide

/-- C14, amended. Whatever the transport reports for a write, nothing is
surfaced. `I2C_Write_Byte` issues its one write, drops the result and hands
its caller nothing, and so do `Pulse_Enable`, `Send_Nibble`, `Send_Byte` and
`BacklightOn`. Every public operation run against any transport leaves the
statics and the object, and produces the trace, of the transport-free call,
handing its caller nothing: the same as on a transport that never fails, so it
goes on with its remaining writes. The same holds for every sequence of public
operations and for the constructor. There is exactly one transport result per
bus write (one for `I2C_Write_Byte`, six for `Send_Byte`), so a failed write
is not retried. -/
theorem C14_transport_result_discarded (bus : Transport) (op : Op) (ops : List Op)
    (g : Statics) (s : LCD_I2C) (val v mode address columns rows I2C SDA SCL : Nat) :
    s.I2C_Write_Byte_on bus val = (s.I2C_Write_Byte val, ())
    ∧ s.Pulse_Enable_on bus val = (s.Pulse_Enable val, ())
    ∧ s.Send_Nibble_on bus val = (s.Send_Nibble val, ())
    ∧ s.Send_Byte_on bus v mode = (s.Send_Byte v mode, ())
    ∧ s.BacklightOn_on bus = (s.BacklightOn, ())
    ∧ (transportResults bus (s.I2C_Write_Byte_on bus val).1).length = 1
    ∧ (transportResults bus (s.Send_Byte_on bus v mode).1).length = 6
    ∧ op.call_on bus g s = ((op.call g s).1, (op.call g s).2.map fun tr => (tr, ()))
    ∧ op.call_on bus g s = op.call_on okBus g s
    ∧ run_on bus g s ops = run g s ops
    ∧ run_on bus g s ops = run_on okBus g s ops
    ∧ LCD_I2C.ctor_on bus address columns rows I2C SDA SCL
        = LCD_I2C.ctor address columns rows I2C SDA SCL
    ∧ LCD_I2C.ctor_on bus address columns rows I2C SDA SCL
        = LCD_I2C.ctor_on okBus address columns rows I2C SDA SCL
    ∧ (∀ tr, (op.call_on bus g s).2 = some (tr, ()) →
        (transportResults bus tr).length = (busWrites tr).length) := by
  refine ⟨rfl, rfl, rfl, rfl, rfl, rfl, rfl, call_on_eq bus op g s, ?_,
    run_on_eq bus ops g s, ?_, ctor_on_eq bus _ _ _ _ _ _, ?_, ?_⟩
  · rw [call_on_eq bus, call_on_eq okBus]
  · rw [run_on_eq bus, run_on_eq okBus]
  · rw [ctor_on_eq bus, ctor_on_eq okBus]
  · intro tr _
    exact transportResults_length bus tr
